import Mathlib

/-!
# esp32_uart_bridge: the bridge task and the reset/boot-mode sequencer

A shallow embedding of `main/esp32_uart_bridge.c`.

The firmware is straight-line code around calls into peripheral drivers
(GPIO, USB-serial-JTAG, UART) and the RTOS.  Every such call is an
interaction with an environment the firmware does not control, so the
embedding threads an explicit `World`: the state of the environment, the
contents of the transfer buffer, and the trace of calls made so far
together with what each call returned.  The environment is an arbitrary
state machine (`Driver`): it sees every call with its arguments and
chooses the result.  The `while (true)` loop of `bridge_task` is unrolled
a given number of iterations.
-/

namespace UartBridge

/-! ## Constants of the source file -/

/-- Source: `#define BUF_SIZE 512`. -/
def BUF_SIZE : Nat := 512

/-- Source: `#define GPIO_OUTPUT_IO_NRST 7`. -/
def GPIO_OUTPUT_IO_NRST : Nat := 7

/-- Source: `#define GPIO_OUTPUT_IO_BOOT0 8`. -/
def GPIO_OUTPUT_IO_BOOT0 : Nat := 8

/-- Source: `#define GPIO_OUTPUT_PIN_SEL ((1 << NRST) | (1 << BOOT0))`. -/
def GPIO_OUTPUT_PIN_SEL : Nat :=
  (1 <<< GPIO_OUTPUT_IO_NRST) ||| (1 <<< GPIO_OUTPUT_IO_BOOT0)

/-- Modelled from the spec: the success code `ESP_OK` of the platform SDK
(its header is not part of the sources); every driver call of type
`esp_err_t` returns it on success and another value on failure. -/
def ESP_OK : Int := 0

/-! ## Calls into the environment -/

/-- The calls the firmware makes, with the arguments that matter.  A write
carries the bytes found at the pointer it is handed (`src`, the first
`size` bytes of the transfer buffer) and the length it was given. -/
inductive Call where
  | gpio_config (pin_bit_mask : Nat)
  | gpio_set_level (pin level : Nat)
  | vTaskDelay (ticks : Nat)
  | usb_serial_jtag_driver_install (tx_buffer_size rx_buffer_size : Nat)
  | uart_driver_install (rx_buffer_size tx_buffer_size : Nat)
  | uart_param_config
  | uart_set_pin
  | malloc (size : Nat)
  | usb_serial_jtag_read_bytes (max_len ticks : Nat)
  | uart_write_bytes (src : List Nat) (size : Nat)
  | uart_flush
  | uart_read_bytes (max_len ticks : Nat)
  | usb_serial_jtag_write_bytes (src : List Nat) (size ticks : Nat)
  | usb_serial_jtag_ll_txfifo_flush
  deriving DecidableEq, Repr

/-- What a call gives back: the C return value (`ret`; 0 for a `void`
call) and, for a read, the bytes the driver stored at the start of the
buffer it was handed (`bytes`; empty for every other call). -/
structure Response where
  ret : Int
  bytes : List Nat
  deriving DecidableEq, Repr

/-- One entry of the trace: a call and its result. -/
abbrev Event := Call × Response

/-- The environment: a state machine that answers every call. -/
structure Driver (σ : Type) where
  respond : σ → Call → Response × σ

/-- The state threaded through the firmware: environment state, contents
of the memory block `data` points to, and the trace so far. -/
structure World (σ : Type) where
  env : σ
  data : List Nat
  trace : List Event

/-- Perform one call: ask the environment, log call and result. -/
def invoke {σ : Type} (d : Driver σ) (c : Call) (w : World σ) : Response × World σ :=
  ((d.respond w.env c).1,
   { env := (d.respond w.env c).2, data := w.data,
     trace := w.trace ++ [(c, (d.respond w.env c).1)] })

/-- A driver storing `bytes` at the start of the buffer: the first
`bytes.length` cells are overwritten, the rest keep their contents. -/
def store (bytes data : List Nat) : List Nat :=
  bytes ++ data.drop bytes.length

/-! ## Driver calls as used by the source -/

/-- Source: `gpio_config(&io_conf)`; returns the `esp_err_t`. -/
def gpio_config {σ : Type} (d : Driver σ) (mask : Nat) (w : World σ) : Int × World σ :=
  ((invoke d (.gpio_config mask) w).1.ret, (invoke d (.gpio_config mask) w).2)

/-- Source: `gpio_set_level(pin, level)`; the source ignores the result. -/
def gpio_set_level {σ : Type} (d : Driver σ) (pin level : Nat) (w : World σ) : World σ :=
  (invoke d (.gpio_set_level pin level) w).2

/-- Source: `vTaskDelay(ticks)`. -/
def vTaskDelay {σ : Type} (d : Driver σ) (ticks : Nat) (w : World σ) : World σ :=
  (invoke d (.vTaskDelay ticks) w).2

/-- Source: `usb_serial_jtag_driver_install(&cfg)`; returns the `esp_err_t`. -/
def usb_serial_jtag_driver_install {σ : Type} (d : Driver σ) (tx rx : Nat) (w : World σ) :
    Int × World σ :=
  ((invoke d (.usb_serial_jtag_driver_install tx rx) w).1.ret,
   (invoke d (.usb_serial_jtag_driver_install tx rx) w).2)

/-- Source: `uart_driver_install(port, rx, tx, 0, NULL, flags)`; returns the `esp_err_t`. -/
def uart_driver_install {σ : Type} (d : Driver σ) (rx tx : Nat) (w : World σ) :
    Int × World σ :=
  ((invoke d (.uart_driver_install rx tx) w).1.ret,
   (invoke d (.uart_driver_install rx tx) w).2)

/-- Source: `uart_param_config(port, &uart_config)`; returns the `esp_err_t`. -/
def uart_param_config {σ : Type} (d : Driver σ) (w : World σ) : Int × World σ :=
  ((invoke d .uart_param_config w).1.ret, (invoke d .uart_param_config w).2)

/-- Source: `uart_set_pin(port, txd, rxd, rts, cts)`; returns the `esp_err_t`. -/
def uart_set_pin {σ : Type} (d : Driver σ) (w : World σ) : Int × World σ :=
  ((invoke d .uart_set_pin w).1.ret, (invoke d .uart_set_pin w).2)

/-- Source: `malloc(size)`.  The contents of the new block are unspecified: they
are whatever `w.data` holds.  The source does not test the pointer. -/
def malloc {σ : Type} (d : Driver σ) (size : Nat) (w : World σ) : World σ :=
  (invoke d (.malloc size) w).2

/-- Source: `usb_serial_jtag_read_bytes(data, max_len, ticks)`: the driver stores
what it read at the start of `data` and returns an `int`. -/
def usb_serial_jtag_read_bytes {σ : Type} (d : Driver σ) (max_len ticks : Nat)
    (w : World σ) : Int × World σ :=
  ((invoke d (.usb_serial_jtag_read_bytes max_len ticks) w).1.ret,
   { (invoke d (.usb_serial_jtag_read_bytes max_len ticks) w).2 with
     data := store (invoke d (.usb_serial_jtag_read_bytes max_len ticks) w).1.bytes w.data })

/-- Source: `uart_read_bytes(port, data, max_len, ticks)`: as the USB read. -/
def uart_read_bytes {σ : Type} (d : Driver σ) (max_len ticks : Nat)
    (w : World σ) : Int × World σ :=
  ((invoke d (.uart_read_bytes max_len ticks) w).1.ret,
   { (invoke d (.uart_read_bytes max_len ticks) w).2 with
     data := store (invoke d (.uart_read_bytes max_len ticks) w).1.bytes w.data })

/-- Source: `uart_write_bytes(port, data, size)`; the source ignores the result. -/
def uart_write_bytes {σ : Type} (d : Driver σ) (size : Nat) (w : World σ) : World σ :=
  (invoke d (.uart_write_bytes (w.data.take size) size) w).2

/-- Source: `uart_flush(port)`; the source ignores the result. -/
def uart_flush {σ : Type} (d : Driver σ) (w : World σ) : World σ :=
  (invoke d .uart_flush w).2

/-- Source: `usb_serial_jtag_write_bytes(data, size, ticks)`; the source ignores the result. -/
def usb_serial_jtag_write_bytes {σ : Type} (d : Driver σ) (size ticks : Nat)
    (w : World σ) : World σ :=
  (invoke d (.usb_serial_jtag_write_bytes (w.data.take size) size ticks) w).2

/-- Source: `usb_serial_jtag_ll_txfifo_flush()`. -/
def usb_serial_jtag_ll_txfifo_flush {σ : Type} (d : Driver σ) (w : World σ) : World σ :=
  (invoke d .usb_serial_jtag_ll_txfifo_flush w).2

/-! ## The mode sequencer

`P` is `portTICK_PERIOD_MS`, the tick period in milliseconds, a constant
of the RTOS configuration. -/

/-- Source: `void dfu_mode()`. -/
def dfu_mode {σ : Type} (d : Driver σ) (P : Nat) (w : World σ) : World σ :=
  let w := gpio_set_level d GPIO_OUTPUT_IO_BOOT0 1 w
  let w := gpio_set_level d GPIO_OUTPUT_IO_NRST 0 w
  let w := vTaskDelay d (20 / P) w
  gpio_set_level d GPIO_OUTPUT_IO_NRST 1 w

/-- Source: `void run_mode()`. -/
def run_mode {σ : Type} (d : Driver σ) (P : Nat) (w : World σ) : World σ :=
  let w := gpio_set_level d GPIO_OUTPUT_IO_BOOT0 0 w
  let w := gpio_set_level d GPIO_OUTPUT_IO_NRST 0 w
  let w := vTaskDelay d (20 / P) w
  gpio_set_level d GPIO_OUTPUT_IO_NRST 1 w

/-! ## The bridge task -/

/-- One pass through the body of `while (true)` in `bridge_task`. -/
def bridge_iteration {σ : Type} (d : Driver σ) (P : Nat) (w : World σ) : World σ :=
  let r := usb_serial_jtag_read_bytes d BUF_SIZE (500 / P) w
  let len := r.1
  let w := r.2
  let w := if len > 0 then uart_flush d (uart_write_bytes d len.toNat w) else w
  let r := uart_read_bytes d BUF_SIZE (500 / P) w
  let len := r.1
  let w := r.2
  if len > 0 then
    usb_serial_jtag_ll_txfifo_flush d (usb_serial_jtag_write_bytes d len.toNat (500 / P) w)
  else w

/-- The first `n` iterations of `while (true)`. -/
def bridge_loop {σ : Type} (d : Driver σ) (P : Nat) : Nat → World σ → World σ
  | 0, w => w
  | n + 1, w => bridge_loop d P n (bridge_iteration d P w)

/-- How far `bridge_task` got: it aborted in a failed check, or it is
still running its loop. -/
inductive Outcome (σ : Type) where
  | aborted (w : World σ)
  | running (w : World σ)

/-- The world an outcome carries. -/
def Outcome.world {σ : Type} : Outcome σ → World σ
  | .aborted w => w
  | .running w => w

/-- Whether the task aborted. -/
def Outcome.isAborted {σ : Type} : Outcome σ → Bool
  | .aborted _ => true
  | .running _ => false

/-- Modelled from the spec: the SDK macro `ESP_ERROR_CHECK(x)`, whose
definition is not part of the sources.  Initialization failure is fatal:
when `x` is not `ESP_OK` the task aborts on the spot, otherwise execution
continues with the statement that follows (`k`). -/
def ESP_ERROR_CHECK {σ : Type} (x : Int × World σ) (k : World σ → Outcome σ) : Outcome σ :=
  if x.1 = ESP_OK then k x.2 else .aborted x.2

/-- Source: `static void bridge_task(void *arg)`, with the loop cut after `n`
iterations. -/
def bridge_task {σ : Type} (d : Driver σ) (P : Nat) (n : Nat) (w : World σ) : Outcome σ :=
  ESP_ERROR_CHECK (gpio_config d GPIO_OUTPUT_PIN_SEL w) fun w =>
  let w := dfu_mode d P w
  ESP_ERROR_CHECK (usb_serial_jtag_driver_install d 128 128 w) fun w =>
  ESP_ERROR_CHECK (uart_driver_install d (BUF_SIZE * 2) 0 w) fun w =>
  ESP_ERROR_CHECK (uart_param_config d w) fun w =>
  ESP_ERROR_CHECK (uart_set_pin d w) fun w =>
  let w := malloc d BUF_SIZE w
  .running (bridge_loop d P n w)

/-! ## Reading a trace -/

/-- The events a run appended to the trace it started from. -/
def eventsSince {σ : Type} (w w' : World σ) : List Event :=
  w'.trace.drop w.trace.length

/-- Events of the first `n` loop iterations started in `w`. -/
def bridge_events {σ : Type} (d : Driver σ) (P n : Nat) (w : World σ) : List Event :=
  eventsSince w (bridge_loop d P n w)

/-- The shape of the events of one loop iteration, given the contents of
the buffer at its start and the results of the calls: `r1` from the USB
read, `rw`, `rf` from the UART write and flush, `r2` from the UART read,
`rw2`, `rf2` from the USB write and flush. -/
def iterationEvents (P : Nat) (data : List Nat) (r1 rw rf r2 rw2 rf2 : Response) :
    List Event :=
  [(Call.usb_serial_jtag_read_bytes BUF_SIZE (500 / P), r1)]
  ++ (if r1.ret > 0 then
        [(Call.uart_write_bytes ((store r1.bytes data).take r1.ret.toNat) r1.ret.toNat, rw),
         (Call.uart_flush, rf)]
      else [])
  ++ [(Call.uart_read_bytes BUF_SIZE (500 / P), r2)]
  ++ (if r2.ret > 0 then
        [(Call.usb_serial_jtag_write_bytes
            ((store r2.bytes (store r1.bytes data)).take r2.ret.toNat) r2.ret.toNat (500 / P),
          rw2),
         (Call.usb_serial_jtag_ll_txfifo_flush, rf2)]
      else [])

/-- Chunks the USB reads returned, one per read, in call order. -/
def usbChunks (evs : List Event) : List (List Nat) :=
  evs.filterMap fun e =>
    match e.1 with
    | .usb_serial_jtag_read_bytes _ _ => some e.2.bytes
    | _ => none

/-- Chunks the UART reads returned, one per read, in call order. -/
def uartChunks (evs : List Event) : List (List Nat) :=
  evs.filterMap fun e =>
    match e.1 with
    | .uart_read_bytes _ _ => some e.2.bytes
    | _ => none

/-- Return values of the USB reads, in call order. -/
def usbReadRets (evs : List Event) : List Int :=
  evs.filterMap fun e =>
    match e.1 with
    | .usb_serial_jtag_read_bytes _ _ => some e.2.ret
    | _ => none

/-- Return values of the UART reads, in call order. -/
def uartReadRets (evs : List Event) : List Int :=
  evs.filterMap fun e =>
    match e.1 with
    | .uart_read_bytes _ _ => some e.2.ret
    | _ => none

/-- What was passed to `uart_write_bytes`: bytes and length, in call order. -/
def uartWrites (evs : List Event) : List (List Nat × Nat) :=
  evs.filterMap fun e =>
    match e.1 with
    | .uart_write_bytes src k => some (src, k)
    | _ => none

/-- What was passed to `usb_serial_jtag_write_bytes`: bytes and length, in
call order. -/
def usbWrites (evs : List Event) : List (List Nat × Nat) :=
  evs.filterMap fun e =>
    match e.1 with
    | .usb_serial_jtag_write_bytes src k _ => some (src, k)
    | _ => none

/-- What the UART took: of each `uart_write_bytes`, the leading bytes the
call reported as accepted (its return value), in call order. -/
def uartAccepted (evs : List Event) : List (List Nat) :=
  evs.filterMap fun e =>
    match e.1 with
    | .uart_write_bytes src _ => some (src.take e.2.ret.toNat)
    | _ => none

/-- What the USB side took: of each `usb_serial_jtag_write_bytes`, the
leading bytes the call reported as accepted (its return value), in call
order. -/
def usbAccepted (evs : List Event) : List (List Nat) :=
  evs.filterMap fun e =>
    match e.1 with
    | .usb_serial_jtag_write_bytes src _ _ => some (src.take e.2.ret.toNat)
    | _ => none

/-- Number of `uart_flush` calls. -/
def uartFlushCount (evs : List Event) : Nat :=
  evs.countP fun e => decide (e.1 = Call.uart_flush)

/-- Number of `usb_serial_jtag_ll_txfifo_flush` calls. -/
def usbFlushCount (evs : List Event) : Nat :=
  evs.countP fun e => decide (e.1 = Call.usb_serial_jtag_ll_txfifo_flush)

/-- Tick counts passed to `vTaskDelay`, in call order. -/
def delayTicks (evs : List Event) : List Nat :=
  evs.filterMap fun e =>
    match e.1 with
    | .vTaskDelay t => some t
    | _ => none

/-- The five peripheral setup calls of `bridge_task`. -/
def isSetupCall : Call → Bool
  | .gpio_config _ => true
  | .usb_serial_jtag_driver_install _ _ => true
  | .uart_driver_install _ _ => true
  | .uart_param_config => true
  | .uart_set_pin => true
  | _ => false

/-- The reads, writes and flushes of the two transports. -/
def isBridgeCall : Call → Bool
  | .usb_serial_jtag_read_bytes _ _ => true
  | .uart_write_bytes _ _ => true
  | .uart_flush => true
  | .uart_read_bytes _ _ => true
  | .usb_serial_jtag_write_bytes _ _ _ => true
  | .usb_serial_jtag_ll_txfifo_flush => true
  | _ => false

/-- The two bounded-wait reads. -/
def isReadCall : Call → Bool
  | .usb_serial_jtag_read_bytes _ _ => true
  | .uart_read_bytes _ _ => true
  | _ => false

/-! ## Pin levels -/

/-- Modelled from the spec: the effect of one call on the output pins.  The
GPIO driver is outside the sources; its contract is
`set_pin_level(pin_id, level)`, which drives the pin to the level and
leaves every other pin alone.  No other call touches a pin. -/
def gpio_apply (c : Call) (pins : Nat → Nat) : Nat → Nat :=
  match c with
  | .gpio_set_level pin level => fun p => if p = pin then level else pins p
  | _ => pins

/-- Pin levels after a sequence of calls. -/
def pinsAfter : List Call → (Nat → Nat) → (Nat → Nat)
  | [], pins => pins
  | c :: cs, pins => pinsAfter cs (gpio_apply c pins)

/-- Pin levels that hold during each `vTaskDelay` of a sequence of calls. -/
def pinsAtDelays : List Call → (Nat → Nat) → List (Nat → Nat)
  | [], _ => []
  | .vTaskDelay _ :: cs, pins => pins :: pinsAtDelays cs pins
  | c :: cs, pins => pinsAtDelays cs (gpio_apply c pins)

/-! ## Test environments -/

/-- State of the in-memory fake transports: bytes waiting to be read on
each side, bytes each side has been handed, and a clock in milliseconds. -/
structure Fake where
  usbPending : List Nat
  uartPending : List Nat
  uartSink : List Nat
  usbSink : List Nat
  clock : Nat
  deriving DecidableEq, Repr

/-- Fake transports for a tick period of `P` ms.  A read returns the first
`min(pending, max_len)` bytes at once; with nothing pending it blocks for
its whole wait of `ticks` ticks and returns 0.  A write accepts all it is
given.  Every other call succeeds and, `vTaskDelay` apart, takes no time. -/
def fakeDriver (P : Nat) : Driver Fake where
  respond s c :=
    match c with
    | .usb_serial_jtag_read_bytes max_len ticks =>
      if s.usbPending = [] then
        (⟨0, []⟩, { s with clock := s.clock + ticks * P })
      else
        (⟨((s.usbPending.take max_len).length : Nat), s.usbPending.take max_len⟩,
         { s with usbPending := s.usbPending.drop max_len })
    | .uart_read_bytes max_len ticks =>
      if s.uartPending = [] then
        (⟨0, []⟩, { s with clock := s.clock + ticks * P })
      else
        (⟨((s.uartPending.take max_len).length : Nat), s.uartPending.take max_len⟩,
         { s with uartPending := s.uartPending.drop max_len })
    | .uart_write_bytes src k => (⟨(k : Nat), []⟩, { s with uartSink := s.uartSink ++ src })
    | .usb_serial_jtag_write_bytes src k _ =>
      (⟨(k : Nat), []⟩, { s with usbSink := s.usbSink ++ src })
    | .vTaskDelay ticks => (⟨0, []⟩, { s with clock := s.clock + ticks * P })
    | _ => (⟨0, []⟩, s)

/-- A fake world: given pending bytes, empty sinks, clock 0, a buffer of
`BUF_SIZE` zero bytes, empty trace. -/
def fakeWorld (usb uart : List Nat) : World Fake :=
  { env := { usbPending := usb, uartPending := uart, uartSink := [], usbSink := [],
             clock := 0 },
    data := List.replicate BUF_SIZE 0, trace := [] }

/-- An environment with data on both sides whose writes and flushes all
report failure: `uart_write_bytes` and `uart_flush` return -1,
`usb_serial_jtag_write_bytes` accepts 0 bytes. -/
def failingWriteDriver : Driver Unit where
  respond _ c :=
    match c with
    | .usb_serial_jtag_read_bytes _ _ => (⟨3, [1, 2, 3]⟩, ())
    | .uart_read_bytes _ _ => (⟨2, [9, 8]⟩, ())
    | .uart_write_bytes _ _ => (⟨-1, []⟩, ())
    | .uart_flush => (⟨-1, []⟩, ())
    | .usb_serial_jtag_write_bytes _ _ _ => (⟨0, []⟩, ())
    | _ => (⟨0, []⟩, ())

/-- An environment in which the setup calls selected by `bad` fail with
`err`, and everything else succeeds with no data. -/
def setupFailDriver (bad : Call → Bool) (err : Int) : Driver Unit where
  respond _ c := (⟨if bad c then err else 0, []⟩, ())

/-- An environment whose `uart_param_config` fails with
`ESP_ERR_INVALID_ARG` (0x102). -/
def badParamDriver : Driver Unit :=
  setupFailDriver (fun c => decide (c = Call.uart_param_config)) 258

/-- An environment whose USB read fails with -1 and whose UART read
returns two bytes; every other call returns 0. -/
def negReadDriver : Driver Unit where
  respond _ c :=
    match c with
    | .usb_serial_jtag_read_bytes _ _ => (⟨-1, []⟩, ())
    | .uart_read_bytes _ _ => (⟨2, [9, 8]⟩, ())
    | _ => (⟨0, []⟩, ())

/-- An empty world over a stateless environment. -/
def unitWorld : World Unit :=
  { env := (), data := List.replicate BUF_SIZE 0, trace := [] }

/-- The events of `bridge_task` up to the loop, given the results of the
calls: `r0` from `gpio_config`, `a1` to `a4` from the four calls of
`dfu_mode`, `r1` to `r4` from the four driver setup calls, `rm` from
`malloc`. -/
def setupEvents (P : Nat) (r0 a1 a2 a3 a4 r1 r2 r3 r4 rm : Response) : List Event :=
  [(Call.gpio_config GPIO_OUTPUT_PIN_SEL, r0),
   (Call.gpio_set_level 8 1, a1), (Call.gpio_set_level 7 0, a2),
   (Call.vTaskDelay (20 / P), a3), (Call.gpio_set_level 7 1, a4),
   (Call.usb_serial_jtag_driver_install 128 128, r1),
   (Call.uart_driver_install (BUF_SIZE * 2) 0, r2),
   (Call.uart_param_config, r3),
   (Call.uart_set_pin, r4),
   (Call.malloc BUF_SIZE, rm)]

/-- Return values of the five setup calls made, in call order. -/
def setupResults (evs : List Event) : List Int :=
  (evs.filter fun e => isSetupCall e.1).map fun e => e.2.ret

/-- The first `m` pieces of `b` cut every `k` bytes, stopping when `b` is
used up. -/
def chunks (k : Nat) : Nat → List Nat → List (List Nat)
  | 0, _ => []
  | m + 1, b => if b = [] then [] else b.take k :: chunks k m (b.drop k)

/-! ## Basic facts -/

theorem store_take (bytes data : List Nat) : (store bytes data).take bytes.length = bytes := by
  simp [store]

theorem usb_read_spec {σ : Type} (d : Driver σ) (m t : Nat) (w : World σ) :
    ∃ r, (usb_serial_jtag_read_bytes d m t w).1 = r.ret
      ∧ (usb_serial_jtag_read_bytes d m t w).2.trace
          = w.trace ++ [(Call.usb_serial_jtag_read_bytes m t, r)]
      ∧ (usb_serial_jtag_read_bytes d m t w).2.data = store r.bytes w.data :=
  ⟨_, rfl, rfl, rfl⟩

theorem uart_read_spec {σ : Type} (d : Driver σ) (m t : Nat) (w : World σ) :
    ∃ r, (uart_read_bytes d m t w).1 = r.ret
      ∧ (uart_read_bytes d m t w).2.trace = w.trace ++ [(Call.uart_read_bytes m t, r)]
      ∧ (uart_read_bytes d m t w).2.data = store r.bytes w.data :=
  ⟨_, rfl, rfl, rfl⟩

theorem uart_write_flush_spec {σ : Type} (d : Driver σ) (k : Nat) (w : World σ) :
    ∃ rw rf, (uart_flush d (uart_write_bytes d k w)).trace
          = w.trace ++ [(Call.uart_write_bytes (w.data.take k) k, rw), (Call.uart_flush, rf)]
      ∧ (uart_flush d (uart_write_bytes d k w)).data = w.data :=
  ⟨_, _, by simp only [uart_flush, uart_write_bytes, invoke, List.append_assoc]; rfl, rfl⟩

theorem usb_write_flush_spec {σ : Type} (d : Driver σ) (k t : Nat) (w : World σ) :
    ∃ rw rf, (usb_serial_jtag_ll_txfifo_flush d (usb_serial_jtag_write_bytes d k t w)).trace
          = w.trace ++ [(Call.usb_serial_jtag_write_bytes (w.data.take k) k t, rw),
                        (Call.usb_serial_jtag_ll_txfifo_flush, rf)]
      ∧ (usb_serial_jtag_ll_txfifo_flush d (usb_serial_jtag_write_bytes d k t w)).data
          = w.data :=
  ⟨_, _, by
    simp only [usb_serial_jtag_ll_txfifo_flush, usb_serial_jtag_write_bytes, invoke,
      List.append_assoc]; rfl, rfl⟩

theorem iteration_shape {σ : Type} (d : Driver σ) (P : Nat) (w : World σ) :
    ∃ r1 rw rf r2 rw2 rf2,
      (bridge_iteration d P w).trace
        = w.trace ++ iterationEvents P w.data r1 rw rf r2 rw2 rf2
      ∧ (bridge_iteration d P w).data = store r2.bytes (store r1.bytes w.data) := by
  unfold bridge_iteration
  dsimp only
  obtain ⟨r1, hr1, ht1, hd1⟩ := usb_read_spec d BUF_SIZE (500 / P) w
  generalize usb_serial_jtag_read_bytes d BUF_SIZE (500 / P) w = x1 at hr1 ht1 hd1
  obtain ⟨len1, w1⟩ := x1
  dsimp only at hr1 ht1 hd1 ⊢
  subst hr1
  by_cases h1 : r1.ret > 0
  · obtain ⟨rw, rf, ht2, hd2⟩ := uart_write_flush_spec d r1.ret.toNat w1
    simp only [h1, if_true]
    generalize uart_flush d (uart_write_bytes d r1.ret.toNat w1) = w2 at ht2 hd2
    obtain ⟨r2, hr2, ht3, hd3⟩ := uart_read_spec d BUF_SIZE (500 / P) w2
    generalize uart_read_bytes d BUF_SIZE (500 / P) w2 = x3 at hr2 ht3 hd3
    obtain ⟨len2, w3⟩ := x3
    dsimp only at hr2 ht3 hd3 ⊢
    subst hr2
    by_cases h2 : r2.ret > 0
    · obtain ⟨rw2, rf2, ht4, hd4⟩ := usb_write_flush_spec d r2.ret.toNat (500 / P) w3
      refine ⟨r1, rw, rf, r2, rw2, rf2, ?_, ?_⟩
      · simp [h2, h1, iterationEvents, ht4, ht3, ht2, ht1, hd3, hd2, hd1]
      · simp [h2, hd4, hd3, hd2, hd1]
    · refine ⟨r1, rw, rf, r2, ⟨0, []⟩, ⟨0, []⟩, ?_, ?_⟩
      · simp [h2, h1, iterationEvents, ht3, ht2, ht1, hd1]
      · simp [h2, hd3, hd2, hd1]
  · simp only [h1, if_false]
    obtain ⟨r2, hr2, ht3, hd3⟩ := uart_read_spec d BUF_SIZE (500 / P) w1
    generalize uart_read_bytes d BUF_SIZE (500 / P) w1 = x3 at hr2 ht3 hd3
    obtain ⟨len2, w3⟩ := x3
    dsimp only at hr2 ht3 hd3 ⊢
    subst hr2
    by_cases h2 : r2.ret > 0
    · obtain ⟨rw2, rf2, ht4, hd4⟩ := usb_write_flush_spec d r2.ret.toNat (500 / P) w3
      refine ⟨r1, ⟨0, []⟩, ⟨0, []⟩, r2, rw2, rf2, ?_, ?_⟩
      · simp [h2, h1, iterationEvents, ht4, ht3, ht1, hd3, hd1]
      · simp [h2, hd4, hd3, hd1]
    · refine ⟨r1, ⟨0, []⟩, ⟨0, []⟩, r2, ⟨0, []⟩, ⟨0, []⟩, ?_, ?_⟩
      · simp [h2, h1, iterationEvents, ht3, ht1]
      · simp [h2, hd3, hd1]

theorem eventsSince_append {σ : Type} (w w' : World σ) (evs : List Event)
    (h : w'.trace = w.trace ++ evs) : eventsSince w w' = evs := by
  simp [eventsSince, h]

theorem iteration_events {σ : Type} (d : Driver σ) (P : Nat) (w : World σ) :
    ∃ r1 rw rf r2 rw2 rf2,
      eventsSince w (bridge_iteration d P w) = iterationEvents P w.data r1 rw rf r2 rw2 rf2 := by
  obtain ⟨r1, rw, rf, r2, rw2, rf2, h, _⟩ := iteration_shape d P w
  exact ⟨r1, rw, rf, r2, rw2, rf2, eventsSince_append _ _ _ h⟩

theorem bridge_iteration_trace {σ : Type} (d : Driver σ) (P : Nat) (w : World σ) :
    (bridge_iteration d P w).trace = w.trace ++ eventsSince w (bridge_iteration d P w) := by
  obtain ⟨r1, rw, rf, r2, rw2, rf2, h, _⟩ := iteration_shape d P w
  rw [eventsSince_append _ _ _ h, h]

theorem bridge_loop_trace {σ : Type} (d : Driver σ) (P : Nat) (n : Nat) (w : World σ) :
    (bridge_loop d P n w).trace = w.trace ++ bridge_events d P n w := by
  induction n generalizing w with
  | zero => simp [bridge_events, bridge_loop, eventsSince]
  | succ n ih =>
    have h := ih (bridge_iteration d P w)
    rw [bridge_iteration_trace, List.append_assoc] at h
    have h2 : (bridge_loop d P (n + 1) w).trace = (bridge_loop d P n (bridge_iteration d P w)).trace :=
      rfl
    rw [bridge_events, eventsSince_append _ _ _ (h2.trans h), h2, h]

theorem bridge_events_zero {σ : Type} (d : Driver σ) (P : Nat) (w : World σ) :
    bridge_events d P 0 w = [] := by
  simp [bridge_events, bridge_loop, eventsSince]

theorem bridge_events_succ {σ : Type} (d : Driver σ) (P : Nat) (n : Nat) (w : World σ) :
    bridge_events d P (n + 1) w
      = eventsSince w (bridge_iteration d P w)
        ++ bridge_events d P n (bridge_iteration d P w) := by
  have h : (bridge_loop d P (n + 1) w).trace
      = w.trace ++ (eventsSince w (bridge_iteration d P w)
          ++ bridge_events d P n (bridge_iteration d P w)) := by
    have h2 : (bridge_loop d P (n + 1) w).trace
        = (bridge_loop d P n (bridge_iteration d P w)).trace := rfl
    rw [h2, bridge_loop_trace, bridge_iteration_trace, List.append_assoc]
  exact eventsSince_append _ _ _ h

/-- Induction over the iterations of the loop: a property of event lists
that holds of the empty list and survives putting the events of one
iteration in front holds of the events of any number of iterations. -/
theorem bridge_events_induction {σ : Type} (d : Driver σ) (P : Nat) (Q : List Event → Prop)
    (h0 : Q [])
    (hstep : ∀ data r1 rw rf r2 rw2 rf2 evs, Q evs →
      Q (iterationEvents P data r1 rw rf r2 rw2 rf2 ++ evs))
    (n : Nat) (w : World σ) : Q (bridge_events d P n w) := by
  induction n generalizing w with
  | zero => rw [bridge_events_zero]; exact h0
  | succ n ih =>
    rw [bridge_events_succ]
    obtain ⟨r1, rw, rf, r2, rw2, rf2, h⟩ := iteration_events d P w
    rw [h]
    exact hstep _ _ _ _ _ _ _ _ (ih _)

/-! ## Projections of the events of one iteration -/

theorem usbChunks_append (a b : List Event) : usbChunks (a ++ b) = usbChunks a ++ usbChunks b := by
  simp [usbChunks]

theorem uartChunks_append (a b : List Event) :
    uartChunks (a ++ b) = uartChunks a ++ uartChunks b := by
  simp [uartChunks]

theorem usbReadRets_append (a b : List Event) :
    usbReadRets (a ++ b) = usbReadRets a ++ usbReadRets b := by
  simp [usbReadRets]

theorem uartReadRets_append (a b : List Event) :
    uartReadRets (a ++ b) = uartReadRets a ++ uartReadRets b := by
  simp [uartReadRets]

theorem uartWrites_append (a b : List Event) :
    uartWrites (a ++ b) = uartWrites a ++ uartWrites b := by
  simp [uartWrites]

theorem usbWrites_append (a b : List Event) :
    usbWrites (a ++ b) = usbWrites a ++ usbWrites b := by
  simp [usbWrites]

theorem uartAccepted_append (a b : List Event) :
    uartAccepted (a ++ b) = uartAccepted a ++ uartAccepted b := by
  simp [uartAccepted]

theorem usbAccepted_append (a b : List Event) :
    usbAccepted (a ++ b) = usbAccepted a ++ usbAccepted b := by
  simp [usbAccepted]

theorem uartFlushCount_append (a b : List Event) :
    uartFlushCount (a ++ b) = uartFlushCount a + uartFlushCount b := by
  simp [uartFlushCount]

theorem usbFlushCount_append (a b : List Event) :
    usbFlushCount (a ++ b) = usbFlushCount a + usbFlushCount b := by
  simp [usbFlushCount]

theorem usbChunks_iteration (P : Nat) (data : List Nat) (r1 rw rf r2 rw2 rf2 : Response) :
    usbChunks (iterationEvents P data r1 rw rf r2 rw2 rf2) = [r1.bytes] := by
  unfold iterationEvents usbChunks
  split_ifs <;> simp

theorem uartChunks_iteration (P : Nat) (data : List Nat) (r1 rw rf r2 rw2 rf2 : Response) :
    uartChunks (iterationEvents P data r1 rw rf r2 rw2 rf2) = [r2.bytes] := by
  unfold iterationEvents uartChunks
  split_ifs <;> simp

theorem usbReadRets_iteration (P : Nat) (data : List Nat) (r1 rw rf r2 rw2 rf2 : Response) :
    usbReadRets (iterationEvents P data r1 rw rf r2 rw2 rf2) = [r1.ret] := by
  unfold iterationEvents usbReadRets
  split_ifs <;> simp

theorem uartReadRets_iteration (P : Nat) (data : List Nat) (r1 rw rf r2 rw2 rf2 : Response) :
    uartReadRets (iterationEvents P data r1 rw rf r2 rw2 rf2) = [r2.ret] := by
  unfold iterationEvents uartReadRets
  split_ifs <;> simp

theorem uartWrites_iteration (P : Nat) (data : List Nat) (r1 rw rf r2 rw2 rf2 : Response) :
    uartWrites (iterationEvents P data r1 rw rf r2 rw2 rf2)
      = if r1.ret > 0 then [((store r1.bytes data).take r1.ret.toNat, r1.ret.toNat)] else [] := by
  unfold iterationEvents uartWrites
  split_ifs <;> simp

theorem usbWrites_iteration (P : Nat) (data : List Nat) (r1 rw rf r2 rw2 rf2 : Response) :
    usbWrites (iterationEvents P data r1 rw rf r2 rw2 rf2)
      = if r2.ret > 0 then
          [((store r2.bytes (store r1.bytes data)).take r2.ret.toNat, r2.ret.toNat)]
        else [] := by
  unfold iterationEvents usbWrites
  split_ifs <;> simp

theorem uartAccepted_iteration (P : Nat) (data : List Nat) (r1 rw rf r2 rw2 rf2 : Response) :
    uartAccepted (iterationEvents P data r1 rw rf r2 rw2 rf2)
      = if r1.ret > 0 then [((store r1.bytes data).take r1.ret.toNat).take rw.ret.toNat]
        else [] := by
  unfold iterationEvents uartAccepted
  split_ifs <;> simp

theorem usbAccepted_iteration (P : Nat) (data : List Nat) (r1 rw rf r2 rw2 rf2 : Response) :
    usbAccepted (iterationEvents P data r1 rw rf r2 rw2 rf2)
      = if r2.ret > 0 then
          [((store r2.bytes (store r1.bytes data)).take r2.ret.toNat).take rw2.ret.toNat]
        else [] := by
  unfold iterationEvents usbAccepted
  split_ifs <;> simp

theorem usbWrite_mem_iteration (P : Nat) (data : List Nat) (r1 rw rf r2 rw2 rf2 : Response)
    (h : r2.ret > 0) :
    (Call.usb_serial_jtag_write_bytes
        ((store r2.bytes (store r1.bytes data)).take r2.ret.toNat) r2.ret.toNat (500 / P), rw2)
      ∈ iterationEvents P data r1 rw rf r2 rw2 rf2 := by
  simp [iterationEvents, h]

theorem uartFlushCount_iteration (P : Nat) (data : List Nat) (r1 rw rf r2 rw2 rf2 : Response) :
    uartFlushCount (iterationEvents P data r1 rw rf r2 rw2 rf2)
      = if r1.ret > 0 then 1 else 0 := by
  unfold iterationEvents uartFlushCount
  split_ifs <;> simp

theorem usbFlushCount_iteration (P : Nat) (data : List Nat) (r1 rw rf r2 rw2 rf2 : Response) :
    usbFlushCount (iterationEvents P data r1 rw rf r2 rw2 rf2)
      = if r2.ret > 0 then 1 else 0 := by
  unfold iterationEvents usbFlushCount
  split_ifs <;> simp

theorem usbRead_mem_iteration (P : Nat) (data : List Nat) (r1 rw rf r2 rw2 rf2 : Response) :
    (Call.usb_serial_jtag_read_bytes BUF_SIZE (500 / P), r1)
      ∈ iterationEvents P data r1 rw rf r2 rw2 rf2 := by
  simp [iterationEvents]

theorem uartRead_mem_iteration (P : Nat) (data : List Nat) (r1 rw rf r2 rw2 rf2 : Response) :
    (Call.uart_read_bytes BUF_SIZE (500 / P), r2)
      ∈ iterationEvents P data r1 rw rf r2 rw2 rf2 := by
  simp [iterationEvents]

theorem uartWrite_mem_iteration (P : Nat) (data : List Nat) (r1 rw rf r2 rw2 rf2 : Response)
    (h : r1.ret > 0) :
    (Call.uart_write_bytes ((store r1.bytes data).take r1.ret.toNat) r1.ret.toNat, rw)
      ∈ iterationEvents P data r1 rw rf r2 rw2 rf2 := by
  simp [iterationEvents, h]

/-! ## USB to UART -/

/-- C1: USB-to-UART byte preservation.  For every environment, tick period,
start state and number `n` of loop iterations: if every USB read of the run
returned a chunk of at most `BUF_SIZE` bytes (its return value being the
length of the chunk) and every UART write of the run accepted all it was
given, then the bytes passed to `uart_write_bytes`, concatenated in call
order, are the chunks returned by `usb_serial_jtag_read_bytes`,
concatenated in call order, and so are the bytes the UART accepted.  The
UART reads in between are unconstrained. -/
theorem usb_to_uart_preserved {σ : Type} (d : Driver σ) (P n : Nat) (w : World σ)
    (hread : ∀ m t r, (Call.usb_serial_jtag_read_bytes m t, r) ∈ bridge_events d P n w →
      r.ret = (r.bytes.length : Int) ∧ r.bytes.length ≤ BUF_SIZE)
    (hwrite : ∀ src k r, (Call.uart_write_bytes src k, r) ∈ bridge_events d P n w →
      r.ret = (k : Int)) :
    ((uartWrites (bridge_events d P n w)).map Prod.fst).flatten
        = (usbChunks (bridge_events d P n w)).flatten
      ∧ (uartAccepted (bridge_events d P n w)).flatten
        = (usbChunks (bridge_events d P n w)).flatten := by
  revert hread hwrite
  refine bridge_events_induction d P
    (fun evs =>
      (∀ m t r, (Call.usb_serial_jtag_read_bytes m t, r) ∈ evs →
        r.ret = (r.bytes.length : Int) ∧ r.bytes.length ≤ BUF_SIZE) →
      (∀ src k r, (Call.uart_write_bytes src k, r) ∈ evs → r.ret = (k : Int)) →
      ((uartWrites evs).map Prod.fst).flatten = (usbChunks evs).flatten
        ∧ (uartAccepted evs).flatten = (usbChunks evs).flatten) ?_ ?_ n w
  · intro _ _
    simp [uartWrites, usbChunks, uartAccepted]
  · intro data r1 rw rf r2 rw2 rf2 evs ih hread hwrite
    have ih' := ih (fun m t r h => hread m t r (List.mem_append_right _ h))
      (fun src k r h => hwrite src k r (List.mem_append_right _ h))
    have h1 := hread _ _ _ (List.mem_append_left _
      (usbRead_mem_iteration P data r1 rw rf r2 rw2 rf2))
    rw [uartWrites_append, usbChunks_append, uartAccepted_append, uartWrites_iteration,
      usbChunks_iteration, uartAccepted_iteration]
    by_cases hpos : r1.ret > 0
    · have hw := hwrite _ _ _ (List.mem_append_left _
        (uartWrite_mem_iteration P data r1 rw rf r2 rw2 rf2 hpos))
      have hk : r1.ret.toNat = r1.bytes.length := by rw [h1.1]; simp
      have hk2 : rw.ret.toNat = r1.bytes.length := by rw [hw, h1.1]; simp
      simp only [hpos, if_true, hk, hk2, store_take, List.map_append, List.map_cons, List.map_nil,
        List.flatten_append, List.flatten_cons, List.flatten_nil, List.append_nil, ih'.1, ih'.2,
        List.take_length, and_self]
    · have hnil : r1.bytes = [] := by
        have : (r1.bytes.length : Int) ≤ 0 := by rw [← h1.1]; exact not_lt.mp hpos
        exact List.length_eq_zero.mp (by omega)
      simp [hpos, hnil, ih'.1, ih'.2]

theorem fake_two_iterations :
    bridge_events (fakeDriver 10) 10 2 (fakeWorld [1, 2, 3] [7])
      = [(Call.usb_serial_jtag_read_bytes 512 50, ⟨3, [1, 2, 3]⟩),
         (Call.uart_write_bytes [1, 2, 3] 3, ⟨3, []⟩),
         (Call.uart_flush, ⟨0, []⟩),
         (Call.uart_read_bytes 512 50, ⟨1, [7]⟩),
         (Call.usb_serial_jtag_write_bytes [7] 1 50, ⟨1, []⟩),
         (Call.usb_serial_jtag_ll_txfifo_flush, ⟨0, []⟩),
         (Call.usb_serial_jtag_read_bytes 512 50, ⟨0, []⟩),
         (Call.uart_read_bytes 512 50, ⟨0, []⟩)] := by
  decide

/-- Witness for C1: two iterations over the fake transports with three
bytes pending on USB and one on the UART. -/
theorem usb_to_uart_preserved_witness :
    (∀ m t r, (Call.usb_serial_jtag_read_bytes m t, r)
        ∈ bridge_events (fakeDriver 10) 10 2 (fakeWorld [1, 2, 3] [7]) →
      r.ret = (r.bytes.length : Int) ∧ r.bytes.length ≤ BUF_SIZE)
    ∧ (∀ src k r, (Call.uart_write_bytes src k, r)
        ∈ bridge_events (fakeDriver 10) 10 2 (fakeWorld [1, 2, 3] [7]) → r.ret = (k : Int))
    ∧ ((uartWrites (bridge_events (fakeDriver 10) 10 2 (fakeWorld [1, 2, 3] [7]))).map
          Prod.fst).flatten
        = (usbChunks (bridge_events (fakeDriver 10) 10 2 (fakeWorld [1, 2, 3] [7]))).flatten
    ∧ (uartAccepted (bridge_events (fakeDriver 10) 10 2 (fakeWorld [1, 2, 3] [7]))).flatten
        = (usbChunks (bridge_events (fakeDriver 10) 10 2 (fakeWorld [1, 2, 3] [7]))).flatten := by
  have h1 : ∀ m t r, (Call.usb_serial_jtag_read_bytes m t, r)
        ∈ bridge_events (fakeDriver 10) 10 2 (fakeWorld [1, 2, 3] [7]) →
      r.ret = (r.bytes.length : Int) ∧ r.bytes.length ≤ BUF_SIZE := by
    intro m t r h
    rw [fake_two_iterations] at h
    simp at h
    rcases h with ⟨_, _, rfl⟩ | ⟨_, _, rfl⟩ <;> simp [BUF_SIZE]
  have h2 : ∀ src k r, (Call.uart_write_bytes src k, r)
        ∈ bridge_events (fakeDriver 10) 10 2 (fakeWorld [1, 2, 3] [7]) → r.ret = (k : Int) := by
    intro src k r h
    rw [fake_two_iterations] at h
    simp at h
    obtain ⟨⟨_, rfl⟩, rfl⟩ := h
    rfl
  exact ⟨h1, h2, usb_to_uart_preserved (fakeDriver 10) 10 2 (fakeWorld [1, 2, 3] [7]) h1 h2⟩

/-! ## UART to USB -/

/-- C2: UART-to-USB byte preservation.  For every environment, tick period,
start state and number `n` of loop iterations: if every UART read of the
run returned a chunk of at most `BUF_SIZE` bytes (its return value being
the length of the chunk), then the calls to `usb_serial_jtag_write_bytes`
are, in order, exactly the non-empty chunks returned by `uart_read_bytes`,
each passed once, whole and with its own length; hence the bytes handed to
the USB side, concatenated, are the UART chunks, concatenated (and so are
the bytes the USB side accepted, when every USB write accepted all it was
given).  The USB reads in between are unconstrained: whatever they left in
the shared buffer never reaches a USB write. -/
theorem uart_to_usb_preserved {σ : Type} (d : Driver σ) (P n : Nat) (w : World σ)
    (hread : ∀ m t r, (Call.uart_read_bytes m t, r) ∈ bridge_events d P n w →
      r.ret = (r.bytes.length : Int) ∧ r.bytes.length ≤ BUF_SIZE) :
    usbWrites (bridge_events d P n w)
        = ((uartChunks (bridge_events d P n w)).filter (fun c => decide (c ≠ []))).map
            (fun c => (c, c.length))
      ∧ ((usbWrites (bridge_events d P n w)).map Prod.fst).flatten
        = (uartChunks (bridge_events d P n w)).flatten
      ∧ ((∀ src k t r, (Call.usb_serial_jtag_write_bytes src k t, r) ∈ bridge_events d P n w →
            r.ret = (k : Int)) →
          (usbAccepted (bridge_events d P n w)).flatten
            = (uartChunks (bridge_events d P n w)).flatten) := by
  revert hread
  refine bridge_events_induction d P
    (fun evs =>
      (∀ m t r, (Call.uart_read_bytes m t, r) ∈ evs →
        r.ret = (r.bytes.length : Int) ∧ r.bytes.length ≤ BUF_SIZE) →
      usbWrites evs
          = ((uartChunks evs).filter (fun c => decide (c ≠ []))).map (fun c => (c, c.length))
        ∧ ((usbWrites evs).map Prod.fst).flatten = (uartChunks evs).flatten
        ∧ ((∀ src k t r, (Call.usb_serial_jtag_write_bytes src k t, r) ∈ evs →
              r.ret = (k : Int)) →
            (usbAccepted evs).flatten = (uartChunks evs).flatten)) ?_ ?_ n w
  · intro _
    simp [usbWrites, uartChunks, usbAccepted]
  · intro data r1 rw rf r2 rw2 rf2 evs ih hread
    have ih' := ih (fun m t r h => hread m t r (List.mem_append_right _ h))
    have h2 := hread _ _ _ (List.mem_append_left _
      (uartRead_mem_iteration P data r1 rw rf r2 rw2 rf2))
    rw [usbWrites_append, uartChunks_append, usbAccepted_append, usbWrites_iteration,
      uartChunks_iteration, usbAccepted_iteration]
    by_cases hpos : r2.ret > 0
    · have hk : r2.ret.toNat = r2.bytes.length := by rw [h2.1]; simp
      have hne : r2.bytes ≠ [] := by
        intro h0
        rw [h2.1, h0] at hpos
        simp at hpos
      simp only [hpos, if_true, hk, store_take, List.filter_append, List.map_append,
        List.flatten_append, ih'.1.symm, ih'.2.1]
      refine ⟨by simp [List.filter, hne], by simp, ?_⟩
      intro hacc
      have hw := hacc _ _ _ _ (List.mem_append_left _
        (usbWrite_mem_iteration P data r1 rw rf r2 rw2 rf2 hpos))
      have hk2 : rw2.ret.toNat = r2.bytes.length := by rw [hw, h2.1]; simp
      rw [ih'.2.2 (fun src k t r h => hacc src k t r (List.mem_append_right _ h)), hk2]
      simp
    · have hnil : r2.bytes = [] := by
        have : (r2.bytes.length : Int) ≤ 0 := by rw [← h2.1]; exact not_lt.mp hpos
        exact List.length_eq_zero.mp (by omega)
      simp only [hpos, if_false, hnil, List.filter_append, List.map_append,
        List.flatten_append, ih'.1.symm, ih'.2.1]
      refine ⟨by simp [List.filter], by simp, ?_⟩
      intro hacc
      rw [ih'.2.2 (fun src k t r h => hacc src k t r (List.mem_append_right _ h))]
      simp

/-- Witness for C2: two iterations over the fake transports with three
bytes pending on USB and one on the UART. -/
theorem uart_to_usb_preserved_witness :
    (∀ m t r, (Call.uart_read_bytes m t, r)
        ∈ bridge_events (fakeDriver 10) 10 2 (fakeWorld [1, 2, 3] [7]) →
      r.ret = (r.bytes.length : Int) ∧ r.bytes.length ≤ BUF_SIZE)
    ∧ usbWrites (bridge_events (fakeDriver 10) 10 2 (fakeWorld [1, 2, 3] [7]))
        = ((uartChunks (bridge_events (fakeDriver 10) 10 2 (fakeWorld [1, 2, 3] [7]))).filter
            (fun c => decide (c ≠ []))).map (fun c => (c, c.length))
    ∧ ((usbWrites (bridge_events (fakeDriver 10) 10 2 (fakeWorld [1, 2, 3] [7]))).map
          Prod.fst).flatten
        = (uartChunks (bridge_events (fakeDriver 10) 10 2 (fakeWorld [1, 2, 3] [7]))).flatten := by
  have h1 : ∀ m t r, (Call.uart_read_bytes m t, r)
        ∈ bridge_events (fakeDriver 10) 10 2 (fakeWorld [1, 2, 3] [7]) →
      r.ret = (r.bytes.length : Int) ∧ r.bytes.length ≤ BUF_SIZE := by
    intro m t r h
    rw [fake_two_iterations] at h
    simp at h
    rcases h with ⟨_, _, rfl⟩ | ⟨_, _, rfl⟩ <;> simp [BUF_SIZE]
  exact ⟨h1, (uart_to_usb_preserved (fakeDriver 10) 10 2 (fakeWorld [1, 2, 3] [7]) h1).1,
    (uart_to_usb_preserved (fakeDriver 10) 10 2 (fakeWorld [1, 2, 3] [7]) h1).2.1⟩

/-! ## The mode sequencer -/

theorem dfu_mode_trace {σ : Type} (d : Driver σ) (P : Nat) (w : World σ) :
    ∃ r1 r2 r3 r4, (dfu_mode d P w).trace
      = w.trace ++ [(Call.gpio_set_level 8 1, r1), (Call.gpio_set_level 7 0, r2),
                    (Call.vTaskDelay (20 / P), r3), (Call.gpio_set_level 7 1, r4)]
      ∧ (dfu_mode d P w).data = w.data :=
  ⟨_, _, _, _, by
    simp only [dfu_mode, gpio_set_level, vTaskDelay, invoke, List.append_assoc,
      GPIO_OUTPUT_IO_BOOT0, GPIO_OUTPUT_IO_NRST]
    rfl, rfl⟩

theorem run_mode_trace {σ : Type} (d : Driver σ) (P : Nat) (w : World σ) :
    ∃ r1 r2 r3 r4, (run_mode d P w).trace
      = w.trace ++ [(Call.gpio_set_level 8 0, r1), (Call.gpio_set_level 7 0, r2),
                    (Call.vTaskDelay (20 / P), r3), (Call.gpio_set_level 7 1, r4)]
      ∧ (run_mode d P w).data = w.data :=
  ⟨_, _, _, _, by
    simp only [run_mode, gpio_set_level, vTaskDelay, invoke, List.append_assoc,
      GPIO_OUTPUT_IO_BOOT0, GPIO_OUTPUT_IO_NRST]
    rfl, rfl⟩

theorem pulse_pins (b t : Nat) (pins : Nat → Nat) :
    (∃ mid, pinsAtDelays [Call.gpio_set_level 8 b, Call.gpio_set_level 7 0, Call.vTaskDelay t,
          Call.gpio_set_level 7 1] pins = [mid] ∧ mid 7 = 0 ∧ mid 8 = b)
      ∧ pinsAfter [Call.gpio_set_level 8 b, Call.gpio_set_level 7 0, Call.vTaskDelay t,
          Call.gpio_set_level 7 1] pins 7 = 1
      ∧ pinsAfter [Call.gpio_set_level 8 b, Call.gpio_set_level 7 0, Call.vTaskDelay t,
          Call.gpio_set_level 7 1] pins 8 = b
      ∧ ∀ p, p ≠ 7 → p ≠ 8 →
          pinsAfter [Call.gpio_set_level 8 b, Call.gpio_set_level 7 0, Call.vTaskDelay t,
            Call.gpio_set_level 7 1] pins p = pins p := by
  refine ⟨⟨_, rfl, ?_, ?_⟩, ?_, ?_, ?_⟩
  · simp [gpio_apply]
  · simp [gpio_apply]
  · simp [pinsAfter, gpio_apply]
  · simp [pinsAfter, gpio_apply]
  · intro p h7 h8
    simp [pinsAfter, gpio_apply, h7, h8]

/-- C3: mode sequencer pulse shape.  In every environment and from every
start state, the calls `dfu_mode` makes are exactly: set pin 8
(BOOT-SELECT) to 1, set pin 7 (RESET) to 0, delay, set pin 7 to 1; those of
`run_mode` are the same with pin 8 set to 0.  Hence, from any initial pin
levels, during the delay RESET is low and BOOT-SELECT is at the level of
the mode; on return RESET is high and BOOT-SELECT is still at that level;
and every other pin keeps its level. -/
theorem mode_sequencer_pulse {σ : Type} (d : Driver σ) (P : Nat) (w : World σ)
    (pins : Nat → Nat) :
    ((eventsSince w (dfu_mode d P w)).map Prod.fst
        = [Call.gpio_set_level 8 1, Call.gpio_set_level 7 0, Call.vTaskDelay (20 / P),
           Call.gpio_set_level 7 1]
      ∧ (∃ mid, pinsAtDelays ((eventsSince w (dfu_mode d P w)).map Prod.fst) pins = [mid]
            ∧ mid 7 = 0 ∧ mid 8 = 1)
      ∧ pinsAfter ((eventsSince w (dfu_mode d P w)).map Prod.fst) pins 7 = 1
      ∧ pinsAfter ((eventsSince w (dfu_mode d P w)).map Prod.fst) pins 8 = 1
      ∧ ∀ p, p ≠ 7 → p ≠ 8 →
          pinsAfter ((eventsSince w (dfu_mode d P w)).map Prod.fst) pins p = pins p)
    ∧ ((eventsSince w (run_mode d P w)).map Prod.fst
        = [Call.gpio_set_level 8 0, Call.gpio_set_level 7 0, Call.vTaskDelay (20 / P),
           Call.gpio_set_level 7 1]
      ∧ (∃ mid, pinsAtDelays ((eventsSince w (run_mode d P w)).map Prod.fst) pins = [mid]
            ∧ mid 7 = 0 ∧ mid 8 = 0)
      ∧ pinsAfter ((eventsSince w (run_mode d P w)).map Prod.fst) pins 7 = 1
      ∧ pinsAfter ((eventsSince w (run_mode d P w)).map Prod.fst) pins 8 = 0
      ∧ ∀ p, p ≠ 7 → p ≠ 8 →
          pinsAfter ((eventsSince w (run_mode d P w)).map Prod.fst) pins p = pins p) := by
  obtain ⟨a1, a2, a3, a4, ha, _⟩ := dfu_mode_trace d P w
  obtain ⟨b1, b2, b3, b4, hb, _⟩ := run_mode_trace d P w
  have hd : (eventsSince w (dfu_mode d P w)).map Prod.fst
      = [Call.gpio_set_level 8 1, Call.gpio_set_level 7 0, Call.vTaskDelay (20 / P),
         Call.gpio_set_level 7 1] := by
    rw [eventsSince_append _ _ _ ha]; rfl
  have hr : (eventsSince w (run_mode d P w)).map Prod.fst
      = [Call.gpio_set_level 8 0, Call.gpio_set_level 7 0, Call.vTaskDelay (20 / P),
         Call.gpio_set_level 7 1] := by
    rw [eventsSince_append _ _ _ hb]; rfl
  rw [hd, hr]
  exact ⟨⟨rfl, pulse_pins 1 (20 / P) pins⟩, ⟨rfl, pulse_pins 0 (20 / P) pins⟩⟩

theorem delayTicks_dfu_mode {σ : Type} (d : Driver σ) (P : Nat) (w : World σ) :
    delayTicks (eventsSince w (dfu_mode d P w)) = [20 / P] := by
  obtain ⟨a1, a2, a3, a4, ha, _⟩ := dfu_mode_trace d P w
  rw [eventsSince_append _ _ _ ha]
  rfl

theorem delayTicks_run_mode {σ : Type} (d : Driver σ) (P : Nat) (w : World σ) :
    delayTicks (eventsSince w (run_mode d P w)) = [20 / P] := by
  obtain ⟨a1, a2, a3, a4, ha, _⟩ := run_mode_trace d P w
  rw [eventsSince_append _ _ _ ha]
  rfl

/-- C8, as stated, fails: with a tick period of 3 ms `dfu_mode` asks for
`20 / 3 = 6` ticks, which last 18 ms, less than 20 ms. -/
theorem settle_delay_counterexample :
    ¬ (∀ t ∈ delayTicks (eventsSince (fakeWorld [] []) (dfu_mode (fakeDriver 3) 3 (fakeWorld [] []))),
        20 ≤ t * 3) := by
  rw [delayTicks_dfu_mode]
  decide

/-- C8, amended: for every positive tick period `P` (in ms), `dfu_mode` and
`run_mode` each request one delay, of `20 / P` ticks (truncating
division).  It lasts `(20 / P) * P` ms, which is at most 20 ms and more
than `20 - P` ms, and it reaches 20 ms exactly when `P` divides 20. -/
theorem settle_delay_ms {σ : Type} (d : Driver σ) (P : Nat) (w : World σ) (hP : 0 < P) :
    delayTicks (eventsSince w (dfu_mode d P w)) = [20 / P]
      ∧ delayTicks (eventsSince w (run_mode d P w)) = [20 / P]
      ∧ (20 / P) * P ≤ 20
      ∧ 20 < (20 / P) * P + P
      ∧ (20 ≤ (20 / P) * P ↔ P ∣ 20) := by
  refine ⟨delayTicks_dfu_mode d P w, delayTicks_run_mode d P w, Nat.div_mul_le_self 20 P, ?_, ?_⟩
  · have h := Nat.lt_div_mul_add hP (a := 20)
    exact h
  · constructor
    · intro h
      have hle := Nat.div_mul_le_self 20 P
      exact Dvd.intro_left (20 / P) (le_antisymm hle h)
    · intro h
      rw [Nat.div_mul_cancel h]

/-- Witness for C8 (amended): a tick period of 10 ms, the SDK default. -/
theorem settle_delay_ms_witness :
    0 < 10
      ∧ delayTicks (eventsSince (fakeWorld [] []) (dfu_mode (fakeDriver 10) 10 (fakeWorld [] [])))
          = [20 / 10]
      ∧ delayTicks (eventsSince (fakeWorld [] []) (run_mode (fakeDriver 10) 10 (fakeWorld [] [])))
          = [20 / 10]
      ∧ (20 / 10) * 10 ≤ 20
      ∧ 20 < (20 / 10) * 10 + 10
      ∧ (20 ≤ (20 / 10) * 10 ↔ 10 ∣ 20) :=
  ⟨by decide, settle_delay_ms (fakeDriver 10) 10 (fakeWorld [] []) (by decide)⟩

/-! ## The loop over the fake transports -/

theorem fake_idle_iteration (P : Nat) (w : World Fake)
    (h1 : w.env.usbPending = []) (h2 : w.env.uartPending = []) :
    bridge_iteration (fakeDriver P) P w
      = { env := { w.env with clock := w.env.clock + 2 * ((500 / P) * P) },
          data := w.data,
          trace := w.trace ++ [(Call.usb_serial_jtag_read_bytes BUF_SIZE (500 / P), ⟨0, []⟩),
                               (Call.uart_read_bytes BUF_SIZE (500 / P), ⟨0, []⟩)] } := by
  simp [bridge_iteration, usb_serial_jtag_read_bytes, uart_read_bytes, invoke, fakeDriver, h1, h2,
    store]
  omega

/-! ## Startup -/

theorem check_spec {σ : Type} (d : Driver σ) (c : Call) (w : World σ) :
    ∃ r, (invoke d c w).1.ret = r.ret ∧ (invoke d c w).2.trace = w.trace ++ [(c, r)]
      ∧ (invoke d c w).2.data = w.data :=
  ⟨_, rfl, rfl, rfl⟩

/-- The six ways `bridge_task` can go: stopped in one of the five checks,
with the trace ending at the failed call, or in the loop. -/
theorem bridge_task_spec {σ : Type} (d : Driver σ) (P n : Nat) (w : World σ) :
    ∃ r0 a1 a2 a3 a4 r1 r2 r3 r4 rm,
      (r0.ret ≠ ESP_OK ∧ (bridge_task d P n w).isAborted = true
        ∧ eventsSince w (bridge_task d P n w).world
            = (setupEvents P r0 a1 a2 a3 a4 r1 r2 r3 r4 rm).take 1)
      ∨ (r0.ret = ESP_OK ∧ r1.ret ≠ ESP_OK ∧ (bridge_task d P n w).isAborted = true
        ∧ eventsSince w (bridge_task d P n w).world
            = (setupEvents P r0 a1 a2 a3 a4 r1 r2 r3 r4 rm).take 6)
      ∨ (r0.ret = ESP_OK ∧ r1.ret = ESP_OK ∧ r2.ret ≠ ESP_OK
        ∧ (bridge_task d P n w).isAborted = true
        ∧ eventsSince w (bridge_task d P n w).world
            = (setupEvents P r0 a1 a2 a3 a4 r1 r2 r3 r4 rm).take 7)
      ∨ (r0.ret = ESP_OK ∧ r1.ret = ESP_OK ∧ r2.ret = ESP_OK ∧ r3.ret ≠ ESP_OK
        ∧ (bridge_task d P n w).isAborted = true
        ∧ eventsSince w (bridge_task d P n w).world
            = (setupEvents P r0 a1 a2 a3 a4 r1 r2 r3 r4 rm).take 8)
      ∨ (r0.ret = ESP_OK ∧ r1.ret = ESP_OK ∧ r2.ret = ESP_OK ∧ r3.ret = ESP_OK
        ∧ r4.ret ≠ ESP_OK ∧ (bridge_task d P n w).isAborted = true
        ∧ eventsSince w (bridge_task d P n w).world
            = (setupEvents P r0 a1 a2 a3 a4 r1 r2 r3 r4 rm).take 9)
      ∨ (r0.ret = ESP_OK ∧ r1.ret = ESP_OK ∧ r2.ret = ESP_OK ∧ r3.ret = ESP_OK
        ∧ r4.ret = ESP_OK
        ∧ ∃ w0, w0.trace = w.trace ++ setupEvents P r0 a1 a2 a3 a4 r1 r2 r3 r4 rm
            ∧ w0.data = w.data
            ∧ bridge_task d P n w = Outcome.running (bridge_loop d P n w0)) := by
  unfold bridge_task ESP_ERROR_CHECK gpio_config usb_serial_jtag_driver_install
    uart_driver_install uart_param_config uart_set_pin malloc
  dsimp only
  obtain ⟨r0, e0, t0, d0⟩ := check_spec d (Call.gpio_config GPIO_OUTPUT_PIN_SEL) w
  generalize invoke d (Call.gpio_config GPIO_OUTPUT_PIN_SEL) w = x0 at e0 t0 d0
  obtain ⟨q0, w0⟩ := x0
  dsimp only at e0 t0 d0 ⊢
  rw [e0]
  obtain ⟨a1, a2, a3, a4, ta, da⟩ := dfu_mode_trace d P w0
  generalize dfu_mode d P w0 = wa at ta da
  obtain ⟨r1, e1, t1, d1⟩ := check_spec d (Call.usb_serial_jtag_driver_install 128 128) wa
  generalize invoke d (Call.usb_serial_jtag_driver_install 128 128) wa = x1 at e1 t1 d1
  obtain ⟨q1, w1⟩ := x1
  dsimp only at e1 t1 d1 ⊢
  rw [e1]
  obtain ⟨r2, e2, t2, d2⟩ := check_spec d (Call.uart_driver_install (BUF_SIZE * 2) 0) w1
  generalize invoke d (Call.uart_driver_install (BUF_SIZE * 2) 0) w1 = x2 at e2 t2 d2
  obtain ⟨q2, w2⟩ := x2
  dsimp only at e2 t2 d2 ⊢
  rw [e2]
  obtain ⟨r3, e3, t3, d3⟩ := check_spec d Call.uart_param_config w2
  generalize invoke d Call.uart_param_config w2 = x3 at e3 t3 d3
  obtain ⟨q3, w3⟩ := x3
  dsimp only at e3 t3 d3 ⊢
  rw [e3]
  obtain ⟨r4, e4, t4, d4⟩ := check_spec d Call.uart_set_pin w3
  generalize invoke d Call.uart_set_pin w3 = x4 at e4 t4 d4
  obtain ⟨q4, w4⟩ := x4
  dsimp only at e4 t4 d4 ⊢
  rw [e4]
  obtain ⟨rm, _, tm, dm⟩ := check_spec d (Call.malloc BUF_SIZE) w4
  generalize invoke d (Call.malloc BUF_SIZE) w4 = xm at tm dm
  obtain ⟨qm, wm⟩ := xm
  dsimp only at tm dm ⊢
  refine ⟨r0, a1, a2, a3, a4, r1, r2, r3, r4, rm, ?_⟩
  by_cases c0 : r0.ret = ESP_OK
  swap
  · left
    refine ⟨c0, by simp [c0, Outcome.isAborted], ?_⟩
    simp only [c0, if_false, Outcome.world]
    exact eventsSince_append _ _ _ (by rw [t0]; rfl)
  right
  by_cases c1 : r1.ret = ESP_OK
  swap
  · left
    refine ⟨c0, c1, by simp [c0, c1, Outcome.isAborted], ?_⟩
    simp only [c0, c1, if_true, if_false, Outcome.world]
    exact eventsSince_append _ _ _ (by rw [t1, ta, t0]; simp [setupEvents])
  right
  by_cases c2 : r2.ret = ESP_OK
  swap
  · left
    refine ⟨c0, c1, c2, by simp [c0, c1, c2, Outcome.isAborted], ?_⟩
    simp only [c0, c1, c2, if_true, if_false, Outcome.world]
    exact eventsSince_append _ _ _ (by rw [t2, t1, ta, t0]; simp [setupEvents])
  right
  by_cases c3 : r3.ret = ESP_OK
  swap
  · left
    refine ⟨c0, c1, c2, c3, by simp [c0, c1, c2, c3, Outcome.isAborted], ?_⟩
    simp only [c0, c1, c2, c3, if_true, if_false, Outcome.world]
    exact eventsSince_append _ _ _ (by rw [t3, t2, t1, ta, t0]; simp [setupEvents])
  right
  by_cases c4 : r4.ret = ESP_OK
  swap
  · left
    refine ⟨c0, c1, c2, c3, c4, by simp [c0, c1, c2, c3, c4, Outcome.isAborted], ?_⟩
    simp only [c0, c1, c2, c3, c4, if_true, if_false, Outcome.world]
    exact eventsSince_append _ _ _ (by rw [t4, t3, t2, t1, ta, t0]; simp [setupEvents])
  right
  refine ⟨c0, c1, c2, c3, c4, wm, ?_, ?_, ?_⟩
  · rw [tm, t4, t3, t2, t1, ta, t0]; simp [setupEvents]
  · rw [dm, d4, d3, d2, d1, da, d0]
  · simp only [c0, c1, c2, c3, c4, if_true]

theorem isBridgeCall_iteration (P : Nat) (data : List Nat) (r1 rw rf r2 rw2 rf2 : Response) :
    ∀ e ∈ iterationEvents P data r1 rw rf r2 rw2 rf2, isBridgeCall e.1 = true := by
  intro e he
  unfold iterationEvents at he
  split_ifs at he <;> simp only [List.mem_append, List.mem_cons, List.mem_singleton,
    List.not_mem_nil, or_false, false_or] at he <;> aesop

theorem bridge_events_bridge_calls {σ : Type} (d : Driver σ) (P n : Nat) (w : World σ) :
    ∀ e ∈ bridge_events d P n w, isBridgeCall e.1 = true := by
  refine bridge_events_induction d P (fun evs => ∀ e ∈ evs, isBridgeCall e.1 = true) ?_ ?_ n w
  · simp
  · intro data r1 rw rf r2 rw2 rf2 evs ih e he
    rcases List.mem_append.mp he with h | h
    · exact isBridgeCall_iteration P data r1 rw rf r2 rw2 rf2 e h
    · exact ih e h

theorem not_setup_of_bridge (c : Call) (h : isBridgeCall c = true) : isSetupCall c = false := by
  cases c <;> simp_all [isBridgeCall, isSetupCall]

theorem setupResults_bridge_events {σ : Type} (d : Driver σ) (P n : Nat) (w : World σ) :
    setupResults (bridge_events d P n w) = [] := by
  unfold setupResults
  rw [List.filter_eq_nil_iff.mpr]
  · rfl
  · intro e he
    simp [not_setup_of_bridge _ (bridge_events_bridge_calls d P n w e he)]

/-- C6: initialization failure is fatal before the bridge loop begins.
For every environment, tick period, start state and loop bound `n`:
(1) if one of the five setup calls (`gpio_config`,
`usb_serial_jtag_driver_install`, `uart_driver_install`,
`uart_param_config`, `uart_set_pin`) returned something other than
`ESP_OK`, then `bridge_task` aborted, that call is the last thing it did,
and it made no read, write or flush on either transport;
(2) if it made any read, write or flush on a transport, then it did not
abort and the five setup calls were all made and all returned `ESP_OK`;
(3) it is in its loop (not aborted) exactly when the five setup calls were
all made and all returned `ESP_OK`. -/
theorem init_failure_fatal {σ : Type} (d : Driver σ) (P n : Nat) (w : World σ) :
    (∀ e ∈ eventsSince w (bridge_task d P n w).world,
        isSetupCall e.1 = true → e.2.ret ≠ ESP_OK →
        (bridge_task d P n w).isAborted = true
          ∧ (eventsSince w (bridge_task d P n w).world).getLast? = some e
          ∧ ∀ e' ∈ eventsSince w (bridge_task d P n w).world, isBridgeCall e'.1 = false)
    ∧ ((∃ e ∈ eventsSince w (bridge_task d P n w).world, isBridgeCall e.1 = true) →
        (bridge_task d P n w).isAborted = false
          ∧ setupResults (eventsSince w (bridge_task d P n w).world)
              = [ESP_OK, ESP_OK, ESP_OK, ESP_OK, ESP_OK])
    ∧ ((bridge_task d P n w).isAborted = false
        ↔ setupResults (eventsSince w (bridge_task d P n w).world)
            = [ESP_OK, ESP_OK, ESP_OK, ESP_OK, ESP_OK]) := by
  obtain ⟨r0, a1, a2, a3, a4, r1, r2, r3, r4, rm, h⟩ := bridge_task_spec d P n w
  rcases h with ⟨c0, hab, hev⟩ | ⟨c0, c1, hab, hev⟩ | ⟨c0, c1, c2, hab, hev⟩
    | ⟨c0, c1, c2, c3, hab, hev⟩ | ⟨c0, c1, c2, c3, c4, hab, hev⟩
    | ⟨c0, c1, c2, c3, c4, w0, ht, _, hrun⟩
  · rw [hev, hab]
    simp [setupEvents, setupResults, isSetupCall, isBridgeCall]
  · rw [hev, hab]
    simp [setupEvents, setupResults, isSetupCall, isBridgeCall, c0, c1]
  · rw [hev, hab]
    simp [setupEvents, setupResults, isSetupCall, isBridgeCall, c0, c1, c2]
  · rw [hev, hab]
    simp [setupEvents, setupResults, isSetupCall, isBridgeCall, c0, c1, c2, c3]
  · rw [hev, hab]
    simp [setupEvents, setupResults, isSetupCall, isBridgeCall, c0, c1, c2, c3, c4]
  · have hev : eventsSince w (bridge_task d P n w).world
        = setupEvents P r0 a1 a2 a3 a4 r1 r2 r3 r4 rm ++ bridge_events d P n w0 := by
      rw [hrun]
      refine eventsSince_append _ _ _ ?_
      simp only [Outcome.world]
      rw [bridge_loop_trace, ht, List.append_assoc]
    have hres : setupResults (setupEvents P r0 a1 a2 a3 a4 r1 r2 r3 r4 rm ++ bridge_events d P n w0)
        = [ESP_OK, ESP_OK, ESP_OK, ESP_OK, ESP_OK] := by
      have hb := setupResults_bridge_events d P n w0
      unfold setupResults at hb ⊢
      rw [List.filter_append, List.map_append, hb]
      simp [setupEvents, isSetupCall, c0, c1, c2, c3, c4]
    rw [hev, hres]
    have hab : (bridge_task d P n w).isAborted = false := by rw [hrun]; rfl
    rw [hab]
    refine ⟨?_, fun _ => ⟨rfl, rfl⟩, by simp⟩
    intro e he hs hne
    exfalso
    rcases List.mem_append.mp he with h | h
    · simp only [setupEvents, List.mem_cons, List.mem_singleton, List.not_mem_nil, or_false] at h
      rcases h with h | h | h | h | h | h | h | h | h | h <;> subst h <;>
        simp_all [isSetupCall]
    · have := not_setup_of_bridge _ (bridge_events_bridge_calls d P n w0 e h)
      rw [this] at hs
      exact Bool.false_ne_true hs

/-- Witness for C6: `uart_param_config` fails; the task aborts there. -/
theorem init_failure_fatal_witness :
    (Call.uart_param_config, (⟨258, []⟩ : Response))
        ∈ eventsSince unitWorld (bridge_task badParamDriver 10 3 unitWorld).world
      ∧ (bridge_task badParamDriver 10 3 unitWorld).isAborted = true
      ∧ (eventsSince unitWorld (bridge_task badParamDriver 10 3 unitWorld).world).getLast?
          = some (Call.uart_param_config, ⟨258, []⟩)
      ∧ ∀ e' ∈ eventsSince unitWorld (bridge_task badParamDriver 10 3 unitWorld).world,
          isBridgeCall e'.1 = false :=
  ⟨by decide,
   (init_failure_fatal badParamDriver 10 3 unitWorld).1 (Call.uart_param_config, ⟨258, []⟩)
     (by decide) rfl (by decide)⟩

/-! ## The loop goes on -/

theorem bridge_loop_succ {σ : Type} (d : Driver σ) (P n : Nat) (w : World σ) :
    bridge_loop d P (n + 1) w = bridge_iteration d P (bridge_loop d P n w) := by
  induction n generalizing w with
  | zero => rfl
  | succ n ih =>
    have h : bridge_loop d P (n + 1 + 1) w = bridge_loop d P (n + 1) (bridge_iteration d P w) :=
      rfl
    rw [h, ih (bridge_iteration d P w)]
    rfl

theorem bridge_events_snoc {σ : Type} (d : Driver σ) (P n : Nat) (w : World σ) :
    bridge_events d P (n + 1) w
      = bridge_events d P n w
        ++ eventsSince (bridge_loop d P n w) (bridge_iteration d P (bridge_loop d P n w)) := by
  have h : (bridge_loop d P (n + 1) w).trace
      = w.trace ++ (bridge_events d P n w
          ++ eventsSince (bridge_loop d P n w) (bridge_iteration d P (bridge_loop d P n w))) := by
    rw [bridge_loop_succ, bridge_iteration_trace, bridge_loop_trace, List.append_assoc]
  exact eventsSince_append _ _ _ h

theorem next_usb_read {σ : Type} (d : Driver σ) (P n : Nat) (w : World σ) :
    ∃ r rest, bridge_events d P (n + 1) w
      = bridge_events d P n w
        ++ (Call.usb_serial_jtag_read_bytes BUF_SIZE (500 / P), r) :: rest := by
  obtain ⟨r1, rw, rf, r2, rw2, rf2, h⟩ := iteration_events d P (bridge_loop d P n w)
  rw [bridge_events_snoc, h]
  exact ⟨r1, _, rfl⟩

theorem loop_never_aborts {σ : Type} (d : Driver σ) (P n : Nat) (w w0 : World σ)
    (h : bridge_task d P 0 w = Outcome.running w0) :
    bridge_task d P n w = Outcome.running (bridge_loop d P n w0) := by
  unfold bridge_task ESP_ERROR_CHECK at h ⊢
  dsimp only at h ⊢
  split_ifs at h ⊢
  simp only [bridge_loop, Outcome.running.injEq] at h
  rw [h]

theorem uart_write_in_iteration (P : Nat) (data : List Nat) (r1 rw rf r2 rw2 rf2 : Response)
    (src : List Nat) (k : Nat) (r : Response)
    (h : (Call.uart_write_bytes src k, r) ∈ iterationEvents P data r1 rw rf r2 rw2 rf2) :
    ∃ tail, iterationEvents P data r1 rw rf r2 rw2 rf2
      = (Call.usb_serial_jtag_read_bytes BUF_SIZE (500 / P), r1)
        :: (Call.uart_write_bytes src k, r) :: (Call.uart_flush, rf)
        :: (Call.uart_read_bytes BUF_SIZE (500 / P), r2) :: tail := by
  unfold iterationEvents at h ⊢
  by_cases h1 : r1.ret > 0
  · simp only [h1, if_true] at h ⊢
    have hw : (Call.uart_write_bytes src k, r)
        = (Call.uart_write_bytes ((store r1.bytes data).take r1.ret.toNat) r1.ret.toNat, rw) := by
      split_ifs at h <;> simp at h <;> simp [h]
    rw [hw]
    exact ⟨_, rfl⟩
  · exfalso
    simp only [h1, if_false] at h
    split_ifs at h <;> simp at h

theorem usb_write_in_iteration (P : Nat) (data : List Nat) (r1 rw rf r2 rw2 rf2 : Response)
    (src : List Nat) (k t : Nat) (r : Response)
    (h : (Call.usb_serial_jtag_write_bytes src k t, r)
      ∈ iterationEvents P data r1 rw rf r2 rw2 rf2) :
    ∃ pre, iterationEvents P data r1 rw rf r2 rw2 rf2
      = pre ++ [(Call.usb_serial_jtag_write_bytes src k t, r),
                (Call.usb_serial_jtag_ll_txfifo_flush, rf2)] := by
  unfold iterationEvents at h ⊢
  by_cases h2 : r2.ret > 0
  · simp only [h2, if_true] at h ⊢
    have hw : (Call.usb_serial_jtag_write_bytes src k t, r)
        = (Call.usb_serial_jtag_write_bytes
            ((store r2.bytes (store r1.bytes data)).take r2.ret.toNat) r2.ret.toNat (500 / P),
           rw2) := by
      split_ifs at h <;> simp at h <;> simp [h]
    rw [hw]
    exact ⟨_, rfl⟩
  · exfalso
    simp only [h2, if_false] at h
    split_ifs at h <;> simp at h

/-! ## Write failure -/

/-- C7, as stated, fails: with data on both sides and every write and
flush reporting failure (`uart_write_bytes` and `uart_flush` return -1,
`usb_serial_jtag_write_bytes` accepts 0 of 2 bytes), the loop goes from
each failed write and flush on to the next read, in the same iteration and
in the following one, and the task has not aborted. -/
theorem write_failure_counterexample :
    bridge_events failingWriteDriver 10 2 unitWorld
        = [(Call.usb_serial_jtag_read_bytes 512 50, ⟨3, [1, 2, 3]⟩),
           (Call.uart_write_bytes [1, 2, 3] 3, ⟨-1, []⟩),
           (Call.uart_flush, ⟨-1, []⟩),
           (Call.uart_read_bytes 512 50, ⟨2, [9, 8]⟩),
           (Call.usb_serial_jtag_write_bytes [9, 8] 2 50, ⟨0, []⟩),
           (Call.usb_serial_jtag_ll_txfifo_flush, ⟨0, []⟩),
           (Call.usb_serial_jtag_read_bytes 512 50, ⟨3, [1, 2, 3]⟩),
           (Call.uart_write_bytes [1, 2, 3] 3, ⟨-1, []⟩),
           (Call.uart_flush, ⟨-1, []⟩),
           (Call.uart_read_bytes 512 50, ⟨2, [9, 8]⟩),
           (Call.usb_serial_jtag_write_bytes [9, 8] 2 50, ⟨0, []⟩),
           (Call.usb_serial_jtag_ll_txfifo_flush, ⟨0, []⟩)]
      ∧ (bridge_task failingWriteDriver 10 2 unitWorld).isAborted = false := by
  decide

/-- C7, amended: the loop ignores what writes and flushes return.  For
every environment, tick period and start state:
(1) after any `n` iterations the loop goes on with the USB read of
iteration `n + 1`;
(2) in any iteration, a `uart_write_bytes`, whatever it returned, is
followed by `uart_flush` and then, whatever that returned, by the UART
read;
(3) in any iteration, a `usb_serial_jtag_write_bytes`, whatever it
returned, is followed by the USB flush, which ends the iteration;
(4) once `bridge_task` has reached its loop it is still running after any
number of iterations: nothing in the loop aborts. -/
theorem write_failure_ignored {σ : Type} (d : Driver σ) (P n : Nat) (w : World σ) :
    (∃ r rest, bridge_events d P (n + 1) w
        = bridge_events d P n w
          ++ (Call.usb_serial_jtag_read_bytes BUF_SIZE (500 / P), r) :: rest)
    ∧ (∀ src k rw, (Call.uart_write_bytes src k, rw) ∈ eventsSince w (bridge_iteration d P w) →
        ∃ r1 rf r2 tail, eventsSince w (bridge_iteration d P w)
          = (Call.usb_serial_jtag_read_bytes BUF_SIZE (500 / P), r1)
            :: (Call.uart_write_bytes src k, rw) :: (Call.uart_flush, rf)
            :: (Call.uart_read_bytes BUF_SIZE (500 / P), r2) :: tail)
    ∧ (∀ src k t rw, (Call.usb_serial_jtag_write_bytes src k t, rw)
          ∈ eventsSince w (bridge_iteration d P w) →
        ∃ pre rf, eventsSince w (bridge_iteration d P w)
          = pre ++ [(Call.usb_serial_jtag_write_bytes src k t, rw),
                    (Call.usb_serial_jtag_ll_txfifo_flush, rf)])
    ∧ (∀ w0, bridge_task d P 0 w = Outcome.running w0 →
        bridge_task d P n w = Outcome.running (bridge_loop d P n w0)) := by
  obtain ⟨r1, rw, rf, r2, rw2, rf2, h⟩ := iteration_events d P w
  refine ⟨next_usb_read d P n w, ?_, ?_, fun w0 h0 => loop_never_aborts d P n w w0 h0⟩
  · intro src k r hm
    rw [h] at hm ⊢
    obtain ⟨tail, ht⟩ := uart_write_in_iteration P w.data r1 rw rf r2 rw2 rf2 src k r hm
    exact ⟨r1, rf, r2, tail, ht⟩
  · intro src k t r hm
    rw [h] at hm ⊢
    obtain ⟨pre, hp⟩ := usb_write_in_iteration P w.data r1 rw rf r2 rw2 rf2 src k t r hm
    exact ⟨pre, rf2, hp⟩

/-- Witness for C7 (amended): a UART write that returned -1 is followed by
the flush and the UART read. -/
theorem write_failure_ignored_witness :
    (Call.uart_write_bytes [1, 2, 3] 3, (⟨-1, []⟩ : Response))
        ∈ eventsSince unitWorld (bridge_iteration failingWriteDriver 10 unitWorld)
      ∧ ∃ r1 rf r2 tail, eventsSince unitWorld (bridge_iteration failingWriteDriver 10 unitWorld)
          = (Call.usb_serial_jtag_read_bytes BUF_SIZE (500 / 10), r1)
            :: (Call.uart_write_bytes [1, 2, 3] 3, ⟨-1, []⟩) :: (Call.uart_flush, rf)
            :: (Call.uart_read_bytes BUF_SIZE (500 / 10), r2) :: tail :=
  ⟨by decide,
   (write_failure_ignored failingWriteDriver 10 0 unitWorld).2.1 [1, 2, 3] 3 ⟨-1, []⟩
     (by decide)⟩

/-- Induction over the iterations of the loop, keeping count. -/
theorem bridge_events_induction_count {σ : Type} (d : Driver σ) (P : Nat)
    (Q : Nat → List Event → Prop) (h0 : Q 0 [])
    (hstep : ∀ k data r1 rw rf r2 rw2 rf2 evs, Q k evs →
      Q (k + 1) (iterationEvents P data r1 rw rf r2 rw2 rf2 ++ evs))
    (n : Nat) (w : World σ) : Q n (bridge_events d P n w) := by
  induction n generalizing w with
  | zero => rw [bridge_events_zero]; exact h0
  | succ n ih =>
    rw [bridge_events_succ]
    obtain ⟨r1, rw, rf, r2, rw2, rf2, h⟩ := iteration_events d P w
    rw [h]
    exact hstep _ _ _ _ _ _ _ _ _ (ih _)

/-! ## Zero-byte reads -/

/-- C5: a zero-byte read is a normal condition.  For every environment,
tick period and start state:
(1) an iteration is the USB read, then possibly other calls, then the UART
read, then possibly other calls; if the USB read returned 0, nothing lies
between the two reads and the iteration has no `uart_write_bytes` and no
`uart_flush`; if the UART read returned 0, nothing follows it in the
iteration and the iteration has no `usb_serial_jtag_write_bytes` and no
USB flush;
(2) after any `n` iterations the next call is the USB read of iteration
`n + 1`;
(3) if every read of the first `n` iterations returned 0, those iterations
consist of exactly one USB read followed by one UART read each;
(4) once `bridge_task` has reached its loop it is still running after any
number of iterations. -/
theorem zero_byte_read_normal {σ : Type} (d : Driver σ) (P n : Nat) (w : World σ) :
    (∃ r1 mid r2 tail, eventsSince w (bridge_iteration d P w)
        = (Call.usb_serial_jtag_read_bytes BUF_SIZE (500 / P), r1)
          :: (mid ++ (Call.uart_read_bytes BUF_SIZE (500 / P), r2) :: tail)
      ∧ (r1.ret = 0 → mid = []
          ∧ uartWrites (eventsSince w (bridge_iteration d P w)) = []
          ∧ uartFlushCount (eventsSince w (bridge_iteration d P w)) = 0)
      ∧ (r2.ret = 0 → tail = []
          ∧ usbWrites (eventsSince w (bridge_iteration d P w)) = []
          ∧ usbFlushCount (eventsSince w (bridge_iteration d P w)) = 0))
    ∧ (∃ r rest, bridge_events d P (n + 1) w
        = bridge_events d P n w
          ++ (Call.usb_serial_jtag_read_bytes BUF_SIZE (500 / P), r) :: rest)
    ∧ ((∀ e ∈ bridge_events d P n w, isReadCall e.1 = true → e.2.ret = 0) →
        (bridge_events d P n w).map Prod.fst
          = (List.replicate n [Call.usb_serial_jtag_read_bytes BUF_SIZE (500 / P),
                               Call.uart_read_bytes BUF_SIZE (500 / P)]).flatten)
    ∧ (∀ w0, bridge_task d P 0 w = Outcome.running w0 →
        bridge_task d P n w = Outcome.running (bridge_loop d P n w0)) := by
  refine ⟨?_, next_usb_read d P n w, ?_, fun w0 h0 => loop_never_aborts d P n w w0 h0⟩
  · obtain ⟨r1, rw, rf, r2, rw2, rf2, h⟩ := iteration_events d P w
    rw [h]
    refine ⟨r1,
      (if r1.ret > 0 then
        [(Call.uart_write_bytes ((store r1.bytes w.data).take r1.ret.toNat) r1.ret.toNat, rw),
         (Call.uart_flush, rf)]
       else []), r2,
      (if r2.ret > 0 then
        [(Call.usb_serial_jtag_write_bytes
            ((store r2.bytes (store r1.bytes w.data)).take r2.ret.toNat) r2.ret.toNat (500 / P),
          rw2),
         (Call.usb_serial_jtag_ll_txfifo_flush, rf2)]
       else []), ?_, ?_, ?_⟩
    · simp only [iterationEvents, List.singleton_append, List.cons_append, List.append_assoc]
      rfl
    · intro h0
      simp [uartWrites_iteration, uartFlushCount_iteration, h0]
    · intro h0
      simp [usbWrites_iteration, usbFlushCount_iteration, h0]
  · refine bridge_events_induction_count d P
      (fun k evs => (∀ e ∈ evs, isReadCall e.1 = true → e.2.ret = 0) →
        evs.map Prod.fst
          = (List.replicate k [Call.usb_serial_jtag_read_bytes BUF_SIZE (500 / P),
                               Call.uart_read_bytes BUF_SIZE (500 / P)]).flatten) ?_ ?_ n w
    · intro _
      rfl
    · intro k data r1 rw rf r2 rw2 rf2 evs ih hz
      have ih' := ih (fun e he => hz e (List.mem_append_right _ he))
      have z1 : r1.ret = 0 := hz _ (List.mem_append_left _
        (usbRead_mem_iteration P data r1 rw rf r2 rw2 rf2)) rfl
      have z2 : r2.ret = 0 := hz _ (List.mem_append_left _
        (uartRead_mem_iteration P data r1 rw rf r2 rw2 rf2)) rfl
      rw [List.map_append, ih', List.replicate_succ, List.flatten_cons]
      simp [iterationEvents, z1, z2]

/-! ## Idle transports -/

theorem fake_idle_loop (P n : Nat) (w : World Fake)
    (h1 : w.env.usbPending = []) (h2 : w.env.uartPending = []) :
    bridge_loop (fakeDriver P) P n w
      = { env := { w.env with clock := w.env.clock + n * (2 * ((500 / P) * P)) },
          data := w.data,
          trace := w.trace
            ++ (List.replicate n
                [((Call.usb_serial_jtag_read_bytes BUF_SIZE (500 / P), ⟨0, []⟩) : Event),
                 (Call.uart_read_bytes BUF_SIZE (500 / P), ⟨0, []⟩)]).flatten } := by
  induction n generalizing w with
  | zero => simp [bridge_loop]
  | succ n ih =>
    have hs : bridge_loop (fakeDriver P) P (n + 1) w
        = bridge_loop (fakeDriver P) P n (bridge_iteration (fakeDriver P) P w) := rfl
    rw [hs, fake_idle_iteration P w h1 h2, ih]
    · simp only [List.replicate_succ, List.flatten_cons, List.append_assoc, World.mk.injEq,
        and_true, true_and]
      congr 1
      ring
    · exact h1
    · exact h2

theorem fake_idle_events (P n : Nat) (w : World Fake)
    (h1 : w.env.usbPending = []) (h2 : w.env.uartPending = []) :
    bridge_events (fakeDriver P) P n w
      = (List.replicate n
          [((Call.usb_serial_jtag_read_bytes BUF_SIZE (500 / P), ⟨0, []⟩) : Event),
           (Call.uart_read_bytes BUF_SIZE (500 / P), ⟨0, []⟩)]).flatten := by
  refine eventsSince_append _ _ _ ?_
  rw [fake_idle_loop P n w h1 h2]

theorem fake_idle_rets (P n : Nat) (w : World Fake)
    (h1 : w.env.usbPending = []) (h2 : w.env.uartPending = []) :
    ∀ e ∈ bridge_events (fakeDriver P) P n w, e.2.ret = 0 := by
  rw [fake_idle_events P n w h1 h2]
  intro e he
  simp only [List.mem_flatten, List.mem_replicate] at he
  obtain ⟨l, ⟨_, rfl⟩, hl⟩ := he
  simp only [List.mem_cons, List.mem_singleton, List.not_mem_nil, or_false] at hl
  rcases hl with rfl | rfl <;> rfl

/-- Witness for C5: three iterations over idle fake transports. -/
theorem zero_byte_read_normal_witness :
    (∀ e ∈ bridge_events (fakeDriver 10) 10 3 (fakeWorld [] []),
        isReadCall e.1 = true → e.2.ret = 0)
      ∧ (bridge_events (fakeDriver 10) 10 3 (fakeWorld [] [])).map Prod.fst
          = (List.replicate 3 [Call.usb_serial_jtag_read_bytes BUF_SIZE (500 / 10),
                               Call.uart_read_bytes BUF_SIZE (500 / 10)]).flatten :=
  ⟨fun e he _ => fake_idle_rets 10 3 (fakeWorld [] []) rfl rfl e he,
   (zero_byte_read_normal (fakeDriver 10) 10 3 (fakeWorld [] [])).2.2.1
     (fun e he _ => fake_idle_rets 10 3 (fakeWorld [] []) rfl rfl e he)⟩

theorem fake_task_runs (P n : Nat) (w : World Fake) :
    (bridge_task (fakeDriver P) P n w).isAborted = false := by
  simp [bridge_task, ESP_ERROR_CHECK, gpio_config, usb_serial_jtag_driver_install,
    uart_driver_install, uart_param_config, uart_set_pin, invoke, fakeDriver, ESP_OK,
    Outcome.isAborted]

/-- C9, as stated, fails: over idle transports, each read blocking its 500
ms (tick period 10 ms, 50 ticks), ten iterations end at 10 000 ms, so the
tenth is not completed after 5 seconds; the fifth ends at 5000 ms. -/
theorem idle_iterations_counterexample :
    ¬ ((bridge_loop (fakeDriver 10) 10 10 (fakeWorld [] [])).env.clock ≤ 5000)
      ∧ (bridge_loop (fakeDriver 10) 10 10 (fakeWorld [] [])).env.clock = 10000
      ∧ (bridge_loop (fakeDriver 10) 10 5 (fakeWorld [] [])).env.clock = 5000 := by
  rw [fake_idle_loop 10 10 (fakeWorld [] []) rfl rfl, fake_idle_loop 10 5 (fakeWorld [] []) rfl rfl]
  decide

/-- C9, amended: in the timed model (both transports idle, a read that
finds no data blocks for its whole wait, nothing else takes time), with a
tick period `P` that divides 500 so that the wait of `500 / P` ticks is
500 ms: `n` iterations take exactly `1000 * n` ms, two waits each; so the
iterations completed within 5 seconds are the first 5, not 10.  They
consist of `2 * n` reads and nothing else, the buffer and the environment
(its clock apart) are as at the start, and the task does not abort. -/
theorem idle_iteration_count (P n : Nat) (w : World Fake) (hP : P ∣ 500)
    (h1 : w.env.usbPending = []) (h2 : w.env.uartPending = []) :
    (bridge_loop (fakeDriver P) P n w).env.clock = w.env.clock + 1000 * n
      ∧ ((bridge_loop (fakeDriver P) P n w).env.clock ≤ w.env.clock + 5000 ↔ n ≤ 5)
      ∧ (bridge_events (fakeDriver P) P n w).map Prod.fst
          = (List.replicate n [Call.usb_serial_jtag_read_bytes BUF_SIZE (500 / P),
                               Call.uart_read_bytes BUF_SIZE (500 / P)]).flatten
      ∧ (bridge_events (fakeDriver P) P n w).length = 2 * n
      ∧ (bridge_loop (fakeDriver P) P n w).data = w.data
      ∧ (bridge_loop (fakeDriver P) P n w).env
          = { w.env with clock := w.env.clock + 1000 * n }
      ∧ (bridge_task (fakeDriver P) P n w).isAborted = false := by
  have hc : n * (2 * ((500 / P) * P)) = 1000 * n := by
    rw [Nat.div_mul_cancel hP]; ring
  have hev := fake_idle_events P n w h1 h2
  rw [fake_idle_loop P n w h1 h2, hev]
  rw [hc]
  refine ⟨rfl, ?_, ?_, ?_, rfl, rfl, fake_task_runs P n w⟩
  · show w.env.clock + 1000 * n ≤ w.env.clock + 5000 ↔ n ≤ 5
    omega
  · induction n with
    | zero => rfl
    | succ k ih => simp [List.replicate_succ]
  · induction n with
    | zero => rfl
    | succ k ih => simp [List.replicate_succ]; omega

/-- Witness for C9 (amended): tick period 10 ms, five iterations. -/
theorem idle_iteration_count_witness :
    (10 ∣ 500)
      ∧ (bridge_loop (fakeDriver 10) 10 5 (fakeWorld [] [])).env.clock
          = (fakeWorld [] []).env.clock + 1000 * 5
      ∧ (bridge_events (fakeDriver 10) 10 5 (fakeWorld [] [])).length = 2 * 5 :=
  ⟨by decide,
   (idle_iteration_count 10 5 (fakeWorld [] []) (by decide) rfl rfl).1,
   (idle_iteration_count 10 5 (fakeWorld [] []) (by decide) rfl rfl).2.2.2.1⟩

/-! ## Lengths of the writes -/

/-- C10: every write stays within the transfer buffer.  For every
environment, tick period, start state and number `n` of iterations: if
every read of the run returned an `int` not greater than `BUF_SIZE`
(negative values included), then every `uart_write_bytes` and every
`usb_serial_jtag_write_bytes` of the run was given a length between 1 and
`BUF_SIZE`.  Moreover (without any assumption) the lengths given to the
UART writes are, in order, exactly the positive return values of the USB
reads, and there are as many UART flushes; likewise for the USB writes and
flushes and the UART reads: a read that returned zero or less produced no
write and no flush. -/
theorem writes_within_buffer {σ : Type} (d : Driver σ) (P n : Nat) (w : World σ)
    (hread : ∀ e ∈ bridge_events d P n w, isReadCall e.1 = true → e.2.ret ≤ (BUF_SIZE : Int)) :
    (∀ p ∈ uartWrites (bridge_events d P n w), 1 ≤ p.2 ∧ p.2 ≤ BUF_SIZE)
      ∧ (∀ p ∈ usbWrites (bridge_events d P n w), 1 ≤ p.2 ∧ p.2 ≤ BUF_SIZE)
      ∧ (uartWrites (bridge_events d P n w)).map (fun p => (p.2 : Int))
          = (usbReadRets (bridge_events d P n w)).filter (fun r => decide (0 < r))
      ∧ (usbWrites (bridge_events d P n w)).map (fun p => (p.2 : Int))
          = (uartReadRets (bridge_events d P n w)).filter (fun r => decide (0 < r))
      ∧ uartFlushCount (bridge_events d P n w)
          = ((usbReadRets (bridge_events d P n w)).filter (fun r => decide (0 < r))).length
      ∧ usbFlushCount (bridge_events d P n w)
          = ((uartReadRets (bridge_events d P n w)).filter (fun r => decide (0 < r))).length := by
  revert hread
  refine bridge_events_induction d P
    (fun evs =>
      (∀ e ∈ evs, isReadCall e.1 = true → e.2.ret ≤ (BUF_SIZE : Int)) →
      (∀ p ∈ uartWrites evs, 1 ≤ p.2 ∧ p.2 ≤ BUF_SIZE)
        ∧ (∀ p ∈ usbWrites evs, 1 ≤ p.2 ∧ p.2 ≤ BUF_SIZE)
        ∧ (uartWrites evs).map (fun p => (p.2 : Int))
            = (usbReadRets evs).filter (fun r => decide (0 < r))
        ∧ (usbWrites evs).map (fun p => (p.2 : Int))
            = (uartReadRets evs).filter (fun r => decide (0 < r))
        ∧ uartFlushCount evs = ((usbReadRets evs).filter (fun r => decide (0 < r))).length
        ∧ usbFlushCount evs = ((uartReadRets evs).filter (fun r => decide (0 < r))).length)
    ?_ ?_ n w
  · intro _
    simp [uartWrites, usbWrites, usbReadRets, uartReadRets, uartFlushCount, usbFlushCount]
  · intro data r1 rw rf r2 rw2 rf2 evs ih hread
    obtain ⟨i1, i2, i3, i4, i5, i6⟩ := ih (fun e he => hread e (List.mem_append_right _ he))
    have b1 : r1.ret ≤ (BUF_SIZE : Int) := hread _ (List.mem_append_left _
      (usbRead_mem_iteration P data r1 rw rf r2 rw2 rf2)) rfl
    have b2 : r2.ret ≤ (BUF_SIZE : Int) := hread _ (List.mem_append_left _
      (uartRead_mem_iteration P data r1 rw rf r2 rw2 rf2)) rfl
    rw [uartWrites_append, usbWrites_append, usbReadRets_append, uartReadRets_append,
      uartFlushCount_append, usbFlushCount_append, uartWrites_iteration, usbWrites_iteration,
      usbReadRets_iteration, uartReadRets_iteration, uartFlushCount_iteration,
      usbFlushCount_iteration, List.map_append, List.map_append, List.filter_append,
      List.filter_append, List.length_append, List.length_append, i3, i4, i5, i6]
    refine ⟨?_, ?_, ?_, ?_, ?_, ?_⟩
    · intro p hp
      rcases List.mem_append.mp hp with h | h
      · by_cases hpos : r1.ret > 0
        · simp only [hpos, if_true, List.mem_singleton] at h
          subst h
          constructor <;> simp only <;> omega
        · simp [hpos] at h
      · exact i1 p h
    · intro p hp
      rcases List.mem_append.mp hp with h | h
      · by_cases hpos : r2.ret > 0
        · simp only [hpos, if_true, List.mem_singleton] at h
          subst h
          constructor <;> simp only <;> omega
        · simp [hpos] at h
      · exact i2 p h
    · by_cases hpos : r1.ret > 0
      · have : (r1.ret.toNat : Int) = r1.ret := Int.toNat_of_nonneg (le_of_lt hpos)
        simp [hpos, List.filter, this]
      · simp [hpos, List.filter]
    · by_cases hpos : r2.ret > 0
      · have : (r2.ret.toNat : Int) = r2.ret := Int.toNat_of_nonneg (le_of_lt hpos)
        simp [hpos, List.filter, this]
      · simp [hpos, List.filter]
    · by_cases hpos : r1.ret > 0
      · simp [hpos, List.filter]
      · simp [hpos, List.filter]
    · by_cases hpos : r2.ret > 0
      · simp [hpos, List.filter]
      · simp [hpos, List.filter]

/-- Witness for C10: one iteration in which the USB read fails with -1 and
the UART read returns two bytes. -/
theorem writes_within_buffer_witness :
    (∀ e ∈ bridge_events negReadDriver 10 1 unitWorld,
        isReadCall e.1 = true → e.2.ret ≤ (BUF_SIZE : Int))
      ∧ (∀ p ∈ uartWrites (bridge_events negReadDriver 10 1 unitWorld),
          1 ≤ p.2 ∧ p.2 ≤ BUF_SIZE)
      ∧ (∀ p ∈ usbWrites (bridge_events negReadDriver 10 1 unitWorld),
          1 ≤ p.2 ∧ p.2 ≤ BUF_SIZE) := by
  have h : ∀ e ∈ bridge_events negReadDriver 10 1 unitWorld,
      isReadCall e.1 = true → e.2.ret ≤ (BUF_SIZE : Int) := by decide
  exact ⟨h, (writes_within_buffer negReadDriver 10 1 unitWorld h).1,
    (writes_within_buffer negReadDriver 10 1 unitWorld h).2.1⟩

/-! ## A burst on the USB side -/

theorem chunks_nil (k m : Nat) : chunks k m [] = [] := by
  cases m <;> simp [chunks]

theorem chunks_flatten (m : Nat) (b : List Nat) :
    (chunks 512 m b).flatten = b.take (512 * m) := by
  induction m generalizing b with
  | zero => simp [chunks]
  | succ m ih =>
    by_cases hb : b = []
    · simp [chunks, hb]
    · simp only [chunks, hb, if_false, List.flatten_cons, ih]
      rw [show 512 * (m + 1) = 512 + 512 * m by ring, List.take_add]

theorem chunks_length (m : Nat) (b : List Nat) :
    (chunks 512 m b).length = min m ((b.length + 511) / 512) := by
  induction m generalizing b with
  | zero => simp [chunks]
  | succ m ih =>
    by_cases hb : b = []
    · simp [chunks, hb]
    · have hl : 0 < b.length := List.length_pos.mpr hb
      simp only [chunks, hb, if_false, List.length_cons, ih, List.length_drop]
      omega

theorem chunks_mem (m : Nat) (b c : List Nat) (h : c ∈ chunks 512 m b) :
    1 ≤ c.length ∧ c.length ≤ 512 := by
  induction m generalizing b with
  | zero => simp [chunks] at h
  | succ m ih =>
    by_cases hb : b = []
    · simp [chunks, hb] at h
    · have hl : 0 < b.length := List.length_pos.mpr hb
      simp only [chunks, hb, if_false, List.mem_cons] at h
      rcases h with rfl | h
      · rw [List.length_take]; omega
      · exact ih _ h

theorem fake_burst_iteration (P : Nat) (w : World Fake)
    (hb : w.env.usbPending ≠ []) (h2 : w.env.uartPending = []) :
    bridge_iteration (fakeDriver P) P w
      = { env := { w.env with
                   usbPending := w.env.usbPending.drop BUF_SIZE,
                   uartSink := w.env.uartSink ++ w.env.usbPending.take BUF_SIZE,
                   clock := w.env.clock + (500 / P) * P },
          data := store (w.env.usbPending.take BUF_SIZE) w.data,
          trace := w.trace ++
            [(Call.usb_serial_jtag_read_bytes BUF_SIZE (500 / P),
                ⟨((w.env.usbPending.take BUF_SIZE).length : Nat),
                 w.env.usbPending.take BUF_SIZE⟩),
             (Call.uart_write_bytes (w.env.usbPending.take BUF_SIZE)
                (w.env.usbPending.take BUF_SIZE).length,
                ⟨((w.env.usbPending.take BUF_SIZE).length : Nat), []⟩),
             (Call.uart_flush, ⟨0, []⟩),
             (Call.uart_read_bytes BUF_SIZE (500 / P), ⟨0, []⟩)] } := by
  have hl : 0 < w.env.usbPending.length := List.length_pos.mpr hb
  have hpos : (((w.env.usbPending.take BUF_SIZE).length : Nat) : Int) > 0 := by
    rw [List.length_take]
    simp only [BUF_SIZE]
    omega
  have e1 : usb_serial_jtag_read_bytes (fakeDriver P) BUF_SIZE (500 / P) w
      = ((((w.env.usbPending.take BUF_SIZE).length : Nat) : Int),
         { env := { w.env with usbPending := w.env.usbPending.drop BUF_SIZE },
           data := store (w.env.usbPending.take BUF_SIZE) w.data,
           trace := w.trace ++
             [(Call.usb_serial_jtag_read_bytes BUF_SIZE (500 / P),
                ⟨((w.env.usbPending.take BUF_SIZE).length : Nat),
                 w.env.usbPending.take BUF_SIZE⟩)] }) := by
    simp only [usb_serial_jtag_read_bytes, invoke, fakeDriver, hb, if_false]
  have ht := store_take (w.env.usbPending.take BUF_SIZE) w.data
  unfold store at ht
  unfold bridge_iteration
  simp only [e1, hpos, if_true, Int.toNat_ofNat]
  simp only [uart_flush, uart_write_bytes, uart_read_bytes, invoke, fakeDriver, store_take, h2,
    if_true, lt_irrefl, if_false, gt_iff_lt, List.append_assoc, store, List.drop_nil,
    List.append_nil, List.nil_append, List.length_nil, List.drop_zero, List.cons_append,
    List.singleton_append, add_zero, ht]

theorem uartWrites_idle (n : Nat) (a b : Nat) :
    uartWrites (List.replicate n
      [((Call.usb_serial_jtag_read_bytes a b, ⟨0, []⟩) : Event),
       (Call.uart_read_bytes a b, ⟨0, []⟩)]).flatten = [] := by
  induction n with
  | zero => rfl
  | succ n ih =>
    rw [List.replicate_succ, List.flatten_cons, uartWrites_append, ih]
    rfl

theorem fake_burst_loop (P m : Nat) (w : World Fake) (h2 : w.env.uartPending = []) :
    uartWrites (bridge_events (fakeDriver P) P m w)
        = (chunks 512 m w.env.usbPending).map (fun c => (c, c.length))
      ∧ (bridge_loop (fakeDriver P) P m w).env.uartSink
        = w.env.uartSink ++ (chunks 512 m w.env.usbPending).flatten := by
  induction m generalizing w with
  | zero => simp [bridge_events_zero, chunks, bridge_loop, uartWrites]
  | succ m ih =>
    by_cases hb : w.env.usbPending = []
    · rw [fake_idle_events P (m + 1) w hb h2, fake_idle_loop P (m + 1) w hb h2, hb, chunks_nil,
        uartWrites_idle]
      simp
    · have hit := fake_burst_iteration P w hb h2
      have hev : eventsSince w (bridge_iteration (fakeDriver P) P w)
          = [(Call.usb_serial_jtag_read_bytes BUF_SIZE (500 / P),
                ⟨((w.env.usbPending.take BUF_SIZE).length : Nat),
                 w.env.usbPending.take BUF_SIZE⟩),
             (Call.uart_write_bytes (w.env.usbPending.take BUF_SIZE)
                (w.env.usbPending.take BUF_SIZE).length,
                ⟨((w.env.usbPending.take BUF_SIZE).length : Nat), []⟩),
             (Call.uart_flush, ⟨0, []⟩),
             (Call.uart_read_bytes BUF_SIZE (500 / P), ⟨0, []⟩)] :=
        eventsSince_append _ _ _ (by rw [hit])
      have h2' : (bridge_iteration (fakeDriver P) P w).env.uartPending = [] := by
        rw [hit]; exact h2
      have hp' : (bridge_iteration (fakeDriver P) P w).env.usbPending
          = w.env.usbPending.drop 512 := by rw [hit]; rfl
      have hs' : (bridge_iteration (fakeDriver P) P w).env.uartSink
          = w.env.uartSink ++ w.env.usbPending.take 512 := by rw [hit]; rfl
      obtain ⟨ih1, ih2⟩ := ih (bridge_iteration (fakeDriver P) P w) h2'
      have hs : bridge_loop (fakeDriver P) P (m + 1) w
          = bridge_loop (fakeDriver P) P m (bridge_iteration (fakeDriver P) P w) := rfl
      constructor
      · rw [bridge_events_succ, uartWrites_append, ih1, hev, hp']
        simp [chunks, hb, uartWrites, BUF_SIZE]
      · rw [hs, ih2, hs', hp']
        simp [chunks, hb]

theorem uart_write_sizes {σ : Type} (d : Driver σ) (P n : Nat) (w : World σ) :
    (uartWrites (bridge_events d P n w)).map (fun p => (p.2 : Int))
      = (usbReadRets (bridge_events d P n w)).filter (fun r => decide (0 < r)) := by
  refine bridge_events_induction d P
    (fun evs => (uartWrites evs).map (fun p => (p.2 : Int))
      = (usbReadRets evs).filter (fun r => decide (0 < r))) ?_ ?_ n w
  · rfl
  · intro data r1 rw rf r2 rw2 rf2 evs ih
    rw [uartWrites_append, usbReadRets_append, uartWrites_iteration, usbReadRets_iteration,
      List.map_append, List.filter_append, ih]
    by_cases hpos : r1.ret > 0
    · have : (r1.ret.toNat : Int) = r1.ret := Int.toNat_of_nonneg (le_of_lt hpos)
      simp [hpos, List.filter, this]
    · simp [hpos, List.filter]

theorem chunks_600 (m : Nat) (b : List Nat) (hb : b.length = 600) (hm : 2 ≤ m) :
    (chunks 512 m b).map List.length = [512, 88] := by
  obtain ⟨k, rfl⟩ : ∃ k, m = k + 2 := ⟨m - 2, by omega⟩
  have h0 : b ≠ [] := by
    intro h; rw [h] at hb; simp at hb
  have h1 : b.drop 512 ≠ [] := by
    intro h
    have := congrArg List.length h
    rw [List.length_drop, hb] at this
    simp at this
  have h2 : (b.drop 512).drop 512 = [] := by
    apply List.length_eq_zero.mp
    rw [List.length_drop, List.length_drop, hb]
  simp only [chunks, h0, h1, h2, if_false, chunks_nil, List.map_cons, List.map_nil,
    List.length_take, List.length_drop, hb]
  rfl

/-- C4: the over-capacity burst.  Over the fake transports (a USB source
whose read returns the first `min(pending, max_len)` bytes, an idle UART
source, a UART sink that accepts everything), with `burst` pending on the
USB side and the loop run for `m` iterations, enough to drain it
(`burst.length ≤ BUF_SIZE * m`): the loop makes `ceil(burst.length / 512)`
UART writes; each has a length between 1 and 512 and passes that many
bytes; the lengths are, in order, those the USB reads returned; the
written chunks, concatenated, are the burst, and so is what the UART sink
received.  For a burst of 600 bytes these are two writes, of 512 and 88
bytes. -/
theorem burst_relay (P m : Nat) (burst : List Nat) (hm : burst.length ≤ BUF_SIZE * m) :
    (uartWrites (bridge_events (fakeDriver P) P m (fakeWorld burst []))).length
        = (burst.length + 511) / 512
      ∧ (∀ p ∈ uartWrites (bridge_events (fakeDriver P) P m (fakeWorld burst [])),
          1 ≤ p.2 ∧ p.2 ≤ BUF_SIZE ∧ p.1.length = p.2)
      ∧ (uartWrites (bridge_events (fakeDriver P) P m (fakeWorld burst []))).map
            (fun p => (p.2 : Int))
          = (usbReadRets (bridge_events (fakeDriver P) P m (fakeWorld burst []))).filter
              (fun r => decide (0 < r))
      ∧ ((uartWrites (bridge_events (fakeDriver P) P m (fakeWorld burst []))).map
            Prod.fst).flatten = burst
      ∧ (bridge_loop (fakeDriver P) P m (fakeWorld burst [])).env.uartSink = burst
      ∧ (burst.length = 600 →
          (uartWrites (bridge_events (fakeDriver P) P m (fakeWorld burst []))).map Prod.snd
            = [512, 88]) := by
  obtain ⟨hw, hs⟩ := fake_burst_loop P m (fakeWorld burst []) rfl
  have hp : (fakeWorld burst []).env.usbPending = burst := rfl
  have hk : (fakeWorld burst []).env.uartSink = [] := rfl
  rw [hp] at hw hs
  rw [hk] at hs
  simp only [BUF_SIZE] at hm ⊢
  have htake : burst.take (512 * m) = burst := List.take_of_length_le hm
  refine ⟨?_, ?_, uart_write_sizes _ _ _ _, ?_, ?_, ?_⟩
  · rw [hw, List.length_map, chunks_length]
    have : (burst.length + 511) / 512 ≤ m := by omega
    omega
  · intro p hpm
    rw [hw] at hpm
    obtain ⟨c, hc, rfl⟩ := List.mem_map.mp hpm
    obtain ⟨h1, h2⟩ := chunks_mem m burst c hc
    exact ⟨h1, h2, rfl⟩
  · rw [hw, List.map_map]
    have : (Prod.fst ∘ fun c : List Nat => (c, c.length)) = id := rfl
    rw [this, List.map_id, chunks_flatten, htake]
  · rw [hs, List.nil_append, chunks_flatten, htake]
  · intro h600
    rw [hw, List.map_map]
    have : (Prod.snd ∘ fun c : List Nat => (c, c.length)) = List.length := rfl
    rw [this]
    exact chunks_600 m burst h600 (by omega)

/-- Witness for C4: the 600 bytes 0, 1, ..., 599, two iterations. -/
theorem burst_relay_witness :
    (List.range 600).length ≤ BUF_SIZE * 2
      ∧ (uartWrites (bridge_events (fakeDriver 10) 10 2 (fakeWorld (List.range 600) []))).length
          = ((List.range 600).length + 511) / 512
      ∧ (bridge_loop (fakeDriver 10) 10 2 (fakeWorld (List.range 600) [])).env.uartSink
          = List.range 600 :=
  ⟨by simp [BUF_SIZE],
   (burst_relay 10 2 (List.range 600) (by simp [BUF_SIZE])).1,
   (burst_relay 10 2 (List.range 600) (by simp [BUF_SIZE])).2.2.2.2.1⟩

end UartBridge
